import Mathlib

/-!
Verification model of the xml-organizer pipeline (src/xml_organizer.py).

The Python source is shallowly embedded: pure helpers become Lean functions
over `List Char` / `String`, the stateful pipeline becomes explicit state
passing over a `PState` record, and interactions with the outside world
(filesystem moves, database errors, clock) are injected through environment
records.  Python sets are modelled as lists with membership tests, and
Python dicts as association lists.
-/

/-!
Character classes: `standardize_company_name` first removes the characters
dot, hyphen, slash and backslash, then collapses whitespace runs to single
spaces, strips, and uppercases.  We model the relevant character classes
(and `str.upper`) on the ASCII range, via code points.
-/

/-- Code points removed by the first substitution of
`standardize_company_name`: dot (46), hyphen (45), slash (47), backslash (92). -/
def isPunctChar (c : Char) : Bool :=
  decide (c.toNat = 46 ∨ c.toNat = 45 ∨ c.toNat = 47 ∨ c.toNat = 92)

/-- ASCII whitespace: the characters collapsed by the second substitution of
`standardize_company_name` (space, tab, newline, carriage return, vertical
tab, form feed). -/
def isWsChar (c : Char) : Bool :=
  decide (c.toNat = 32 ∨ c.toNat = 9 ∨ c.toNat = 10 ∨ c.toNat = 13 ∨
          c.toNat = 11 ∨ c.toNat = 12)

/-- Model of Python's `str.upper` on one character (ASCII letters). -/
def upperChar (c : Char) : Char :=
  if h : 97 ≤ c.toNat ∧ c.toNat ≤ 122 then
    Char.ofNatAux (c.toNat - 32) (Or.inl (by omega))
  else c

/-!
Model of `standardize_company_name`.
-/

/-- Whitespace-run collapsing: each maximal run of whitespace becomes a single
space.  The flag records whether the previous character was whitespace (i.e.
whether the current run has already emitted its space). -/
def collapse_spaces : List Char → Bool → List Char
  | [], _ => []
  | c :: rest, true =>
    if isWsChar c then collapse_spaces rest true
    else c :: collapse_spaces rest false
  | c :: rest, false =>
    if isWsChar c then ' ' :: collapse_spaces rest true
    else c :: collapse_spaces rest false

/-- Model of Python's `str.strip()` (remove leading and trailing whitespace). -/
def pyStrip (l : List Char) : List Char :=
  ((l.dropWhile isWsChar).reverse.dropWhile isWsChar).reverse

/-- `standardize_company_name` from the source, on character lists: remove the
punctuation class, collapse whitespace runs to single spaces, strip, uppercase. -/
def standardize_list (l : List Char) : List Char :=
  (pyStrip (collapse_spaces (l.filter (fun c => !isPunctChar c)) false)).map upperChar

/-- `standardize_company_name` from the source (string level). -/
def standardize_company_name (s : String) : String :=
  String.mk (standardize_list s.data)

/-!
XML extractor model (`get_xml_info`).

An already-parsed XML document is abstracted as the presence or absence of
the elements and attribute that `get_xml_info` looks up (the namespace /
no-namespace search loops of the source only determine whether an element is
found, so the abstraction records the result of that search).  An element is
`Option (Option String)`: missing element, or element whose text is `None`,
or element with text.
-/

structure XmlIde where
  dhEmi : Option (Option String)
  dEmi : Option (Option String)
  modTag : Option (Option String)
deriving DecidableEq

structure XmlEmit where
  cnpjTag : Option (Option String)
  xNome : Option (Option String)
deriving DecidableEq

structure XmlInfNFe where
  idAttr : Option String
  ide : Option XmlIde
  emit : Option XmlEmit
deriving DecidableEq

structure XmlDoc where
  infNFe : Option XmlInfNFe
deriving DecidableEq

/-- The record produced by `get_xml_info` on success. -/
structure XmlInfo where
  data_processamento : String
  data_emissao : String
  chave_acesso : String
  empresa_nome_xml : String
  empresa_nome_padronizado : String
  cnpj : String
  tipo_documento : String
  ano_emissao : String
  mes_ano_emissao : String
  dia_emissao : String
deriving DecidableEq

/-- Remove every occurrence of `pat` from a list, left to right and
non-overlapping: the model of Python's `str.replace(pat, '')`.  The fuel
argument makes the recursion structural; `removeOcc` supplies enough fuel. -/
def removeOccAux (pat : List Char) : Nat → List Char → List Char
  | 0, l => l
  | _ + 1, [] => []
  | fuel + 1, c :: rest =>
    if pat ≠ [] ∧ pat.isPrefixOf (c :: rest) then
      removeOccAux pat fuel (List.drop (pat.length - 1) rest)
    else c :: removeOccAux pat fuel rest

def removeOcc (pat l : List Char) : List Char := removeOccAux pat l.length l

/-- Python truthiness of an optional string (`None` and `''` are falsy). -/
def pyTruthy (o : Option String) : Bool :=
  match o with
  | none => false
  | some s => s ≠ ""

/-- Split a character list on a separator character (model of `str.split`). -/
def splitOnChar (sep : Char) (l : List Char) : List (List Char) :=
  l.foldr
    (fun c acc =>
      match acc with
      | [] => if c = sep then [[], []] else [[c]]
      | cur :: rest => if c = sep then [] :: cur :: rest else (c :: cur) :: rest)
    [[]]

/-- Numeric value of a non-empty all-digit character list. -/
def digitsVal (l : List Char) : Option Nat :=
  if l ≠ [] ∧ l.all Char.isDigit then
    some (l.foldl (fun a c => a * 10 + (c.toNat - 48)) 0)
  else none

def isLeapYear (y : Nat) : Bool :=
  (y % 4 = 0 && y % 100 ≠ 0) || y % 400 = 0

def daysInMonth (y m : Nat) : Nat :=
  if m = 2 then (if isLeapYear y then 29 else 28)
  else if m = 4 ∨ m = 6 ∨ m = 9 ∨ m = 11 then 30
  else 31

/-- Model of `datetime.strptime(s, '%Y-%m-%d')`: four year digits, one or two
month digits, one or two day digits, separated by hyphens, with calendar
validation; `none` models the `ValueError` (caught by the extractor). -/
def parseDate (l : List Char) : Option (Nat × Nat × Nat) :=
  match splitOnChar '-' l with
  | [ys, ms, ds] =>
    if ys.length = 4 ∧ ms.length ≤ 2 ∧ ds.length ≤ 2 then
      match digitsVal ys, digitsVal ms, digitsVal ds with
      | some y, some m, some d =>
        if 1 ≤ y ∧ 1 ≤ m ∧ m ≤ 12 ∧ 1 ≤ d ∧ d ≤ daysInMonth y m then
          some (y, m, d)
        else none
      | _, _, _ => none
    else none
  | _ => none

/-- Zero-pad to two digits (`%m`, `%d`). -/
def pad2 (n : Nat) : String :=
  if n < 10 then "0" ++ toString n else toString n

/-- Zero-pad to four digits (`%Y`). -/
def pad4 (n : Nat) : String :=
  (if n < 10 then "000" else if n < 100 then "00" else if n < 1000 then "0" else "")
    ++ toString n

/-- The emission-date string selected by `get_xml_info`: first a non-empty
`dhEmi` (truncated at `T`), then a non-empty `dEmi`.  A found element whose
text is `None` raises inside the source's `try` block, so the whole
extraction fails (`none` here, which `get_xml_info` propagates). -/
def emission_date_str (ide : XmlIde) : Option String :=
  let fromElem : Option (Option String) → Option String := fun e =>
    match e with
    | some (some t) => some (String.mk (t.data.takeWhile (fun c => c ≠ 'T')))
    | _ => none
  match ide.dhEmi with
  | some none => none
  | some (some t) =>
    let d := String.mk (t.data.takeWhile (fun c => c ≠ 'T'))
    if d ≠ "" then some d
    else
      match ide.dEmi with
      | some none => none
      | some (some t') =>
        let d' := fromElem (some (some t'))
        match d' with
        | some s => if s ≠ "" then some s else none
        | none => none
      | none => none
  | none =>
    match ide.dEmi with
    | some none => none
    | some (some t') =>
      let d' := String.mk (t'.data.takeWhile (fun c => c ≠ 'T'))
      if d' ≠ "" then some d' else none
    | none => none

/-- `get_xml_info` from the source: extract the access key, emission date,
model code, issuer tax id and issuer name, or fail with `none` (the source
returns `None` both on explicit checks and on caught exceptions).  `today`
stands for `datetime.now().strftime('%Y-%m-%d')`. -/
def get_xml_info (doc : XmlDoc) (today : String) : Option XmlInfo :=
  match doc.infNFe with
  | none => none
  | some inf =>
    let chave := String.mk
      (removeOcc "nfe".data (removeOcc "NFe".data (inf.idAttr.getD "").data))
    match inf.ide, inf.emit with
    | some ide, some emitB =>
      match emission_date_str ide with
      | none => none
      | some dstr =>
        match parseDate dstr.data with
        | none => none
        | some (y, m, d) =>
          let modelo : Option String := ide.modTag.join
          let tipo :=
            match modelo with
            | some mo => if mo = "55" then "NFE" else if mo = "65" then "NFCE" else "MOD" ++ mo
            | none => "MODNone"
          let cnpj := emitB.cnpjTag.join
          let nome := emitB.xNome.join
          if pyTruthy cnpj ∧ pyTruthy nome then
            some
              { data_processamento := today
                data_emissao := pad4 y ++ "-" ++ pad2 m ++ "-" ++ pad2 d
                chave_acesso := chave
                empresa_nome_xml := nome.getD ""
                empresa_nome_padronizado := standardize_company_name (nome.getD "")
                cnpj := cnpj.getD ""
                tipo_documento := tipo
                ano_emissao := pad4 y
                mes_ano_emissao := pad2 m ++ "-" ++ pad4 y
                dia_emissao := pad2 d }
          else none
    | _, _ => none


/-!
Pipeline state machine model.

`PState` carries the mutable state that `atomic_process_file` and its callers
touch: the two idempotency caches, the issuer cache and `empresa` table, the
`nota_fiscal` (document) table, the set of files present under the archive
root, and whether the quarantine copy of the file being processed still
exists.  Status updates and other observable actions are recorded as a trace
of events.
-/

/-- `ProcessingStatus` from the source. -/
inductive PStatus
  | PENDING | QUARANTINED | PROCESSING | PARSED | DB_INSERTED | FILE_MOVED | SUCCESS
  | FAILED_PARSING | FAILED_DB | FAILED_MOVE | FAILED_PERMANENT | DUPLICATE
deriving DecidableEq

/-- `ErrorType` from the source. -/
inductive ErrorType
  | XML_PARSE_ERROR | XML_INVALID_STRUCTURE | DB_CONNECTION_ERROR | DB_INTEGRITY_ERROR
  | FILE_NOT_FOUND | FILE_PERMISSION_ERROR | NETWORK_ERROR | UNKNOWN_ERROR
deriving DecidableEq

/-- A row of the `nota_fiscal` table. -/
structure DocRow where
  chave_acesso : String
  hash_arquivo : String
  empresa_id : Nat
  data_processamento : String
  data_emissao : String
  tipo_documento : String
  caminho_arquivo : List String
deriving DecidableEq

/-- A row of the `empresa` table. -/
structure EmpresaRow where
  empId : Nat
  cnpj : String
  nome : String
deriving DecidableEq

/-- Observable events of one file's processing: calls to
`update_processing_status` (with the `final_destination` argument when the
source passes one), rows written by `record_attempt`, backoff sleeps, the
dead-letter move, and the CRITICAL log lines of the rollback and dead-letter
failure paths. -/
inductive Ev
  | statusUpd (st : PStatus) (finalDest : Option (List String))
  | attemptRec (n : Nat) (st : PStatus) (et : Option ErrorType)
  | sleepEv (secs : Nat)
  | deadLetterMove (qname : String)
  | criticalRollbackFailure
  | criticalDeadLetterFailure
deriving DecidableEq

/-- Mutable state threaded through the pipeline. -/
structure PState where
  company_cache : List (String × Nat × String)
  empresas : List EmpresaRow
  nextEmpresaId : Nat
  nota_fiscal : List DocRow
  processed_hashes : List String
  processed_keys : List String
  destFiles : List (List String)
  quarantinePresent : Bool
deriving DecidableEq

/-- Configuration constants from the source. -/
def MAX_RETRY_ATTEMPTS : Nat := 5

def RETRY_DELAY_BASE : Nat := 2

def DESTINATION_NETWORK_DIRECTORY : List String :=
  ["mnt", "r", "XML_ASINCRONIZAR", "ZZZ_XML_BOT"]

def DEAD_LETTER_DIRECTORY : List String :=
  ["mnt", "c", "xml_organizer_data", "dead_letter"]

/-- Lookup in the `company_cache` dict. -/
def cacheLookup (cnpj : String) : List (String × Nat × String) → Option (Nat × String)
  | [] => none
  | (c, i, n) :: rest => if c = cnpj then some (i, n) else cacheLookup cnpj rest

/-- Assignment `company_cache[cnpj] = {id, nome}` on the association list. -/
def cacheSet (cnpj : String) (empId : Nat) (nome : String) :
    List (String × Nat × String) → List (String × Nat × String)
  | [] => [(cnpj, empId, nome)]
  | (c, i, n) :: rest =>
    if c = cnpj then (cnpj, empId, nome) :: rest else (c, i, n) :: cacheSet cnpj empId nome rest

/-- `UPDATE empresa SET nome = x WHERE cnpj = y`. -/
def updateEmpresaNomeByCnpj (cnpj nome : String) (l : List EmpresaRow) : List EmpresaRow :=
  l.map (fun r => if r.cnpj = cnpj then { r with nome := nome } else r)

/-- `UPDATE empresa SET nome = x WHERE id = y`. -/
def updateEmpresaNomeById (empId : Nat) (nome : String) (l : List EmpresaRow) : List EmpresaRow :=
  l.map (fun r => if r.empId = empId then { r with nome := nome } else r)

/-- `get_or_create_company` from the source: consult the issuer cache, then
the `empresa` table, updating the stored display name to the standardized
form of the incoming name when they differ; afterwards the cache maps the
tax id to the standardized name. -/
def get_or_create_company (cnpj nome_xml : String) (s : PState) : Nat × PState :=
  let p := standardize_company_name nome_xml
  match cacheLookup cnpj s.company_cache with
  | some (empId, nome) =>
    if nome ≠ p then
      (empId, { s with empresas := updateEmpresaNomeByCnpj cnpj p s.empresas,
                       company_cache := cacheSet cnpj empId p s.company_cache })
    else (empId, s)
  | none =>
    match s.empresas.find? (fun r => r.cnpj = cnpj) with
    | some row =>
      let emp' := if row.nome ≠ p then updateEmpresaNomeById row.empId p s.empresas
                  else s.empresas
      (row.empId, { s with empresas := emp',
                           company_cache := cacheSet cnpj row.empId p s.company_cache })
    | none =>
      let newId := s.nextEmpresaId
      (newId, { s with empresas := { empId := newId, cnpj := cnpj, nome := p } :: s.empresas,
                       nextEmpresaId := newId + 1,
                       company_cache := cacheSet cnpj newId p s.company_cache })

/-- The destination path built in FASE 4 of `atomic_process_file`
(a path is a list of components under the filesystem root). -/
def destination_path (nome cnpj tipo ano mesAno dia fname : String) : List String :=
  DESTINATION_NETWORK_DIRECTORY ++ [nome ++ " - " ++ cnpj, tipo, ano, mesAno, dia, fname]

/-- The quarantine file name chosen by `move_to_quarantine`:
timestamp prefix followed by the original name. -/
def quarantine_name (tstamp orig : String) : String := tstamp ++ "_" ++ orig

/-- Outcomes of the environment for one `atomic_process_file` call:
the hash computation, the XML parse, a non-integrity database error on the
insert, the success of the physical move, the success of the rollback
delete, and the current date string. -/
structure AttemptEnv where
  fileHash : Option String
  xmlDoc : Option XmlDoc
  today : String
  dbOtherError : Bool
  moveOk : Bool
  rollbackOk : Bool

/-- Return value of `atomic_process_file`: `(success, error_message, error_type)`. -/
structure AtomicResult where
  success : Bool
  errMsg : Option String
  errType : Option ErrorType
deriving DecidableEq

/-- `atomic_process_file` from the source.  The phases mirror the source:
hash, duplicate-by-hash, parse, duplicate-by-key, `PARSED` update, issuer
upsert, destination construction, duplicate-by-destination, document insert
(integrity violation when an existing row shares the access key or the
content hash; rollback on any other error), physical move with database
rollback on failure, cache update, `SUCCESS` update. -/
def atomic_process_file (env : AttemptEnv) (qname : String) (s : PState) :
    AtomicResult × PState × List Ev :=
  match env.fileHash with
  | none => ({ success := false, errMsg := some "Falha ao calcular hash",
               errType := some .FILE_NOT_FOUND }, s, [])
  | some file_hash =>
    if file_hash ∈ s.processed_hashes then
      ({ success := true, errMsg := some "Duplicado (hash)", errType := none },
       { s with quarantinePresent := false }, [.statusUpd .DUPLICATE none])
    else
      match env.xmlDoc.bind (fun d => get_xml_info d env.today) with
      | none => ({ success := false, errMsg := some "XML inválido ou incompleto",
                   errType := some .XML_INVALID_STRUCTURE }, s, [])
      | some info =>
        if info.chave_acesso ∈ s.processed_keys then
          ({ success := true, errMsg := some "Duplicado (chave)", errType := none },
           { s with quarantinePresent := false }, [.statusUpd .DUPLICATE none])
        else
          let g := get_or_create_company info.cnpj info.empresa_nome_xml s
          let empresa_id := g.1
          let s1 := g.2
          let nome_final := ((cacheLookup info.cnpj s1.company_cache).map Prod.snd).getD ""
          let dest := destination_path nome_final info.cnpj info.tipo_documento
            info.ano_emissao info.mes_ano_emissao info.dia_emissao qname
          if dest ∈ s1.destFiles then
            ({ success := true, errMsg := some "Duplicado (destino existe)", errType := none },
             { s1 with quarantinePresent := false },
             [.statusUpd .PARSED none, .statusUpd .DUPLICATE none])
          else if s1.nota_fiscal.any
              (fun r => r.chave_acesso == info.chave_acesso || r.hash_arquivo == file_hash) then
            ({ success := true, errMsg := some "Duplicado (BD)", errType := none },
             { s1 with quarantinePresent := false },
             [.statusUpd .PARSED none, .statusUpd .DUPLICATE none])
          else if env.dbOtherError then
            ({ success := false, errMsg := some "Erro BD",
               errType := some .DB_CONNECTION_ERROR }, s1, [.statusUpd .PARSED none])
          else
            let row : DocRow :=
              { chave_acesso := info.chave_acesso, hash_arquivo := file_hash,
                empresa_id := empresa_id, data_processamento := info.data_processamento,
                data_emissao := info.data_emissao, tipo_documento := info.tipo_documento,
                caminho_arquivo := dest }
            let s2 := { s1 with nota_fiscal := row :: s1.nota_fiscal }
            if env.moveOk then
              ({ success := true, errMsg := none, errType := none },
               { s2 with destFiles := dest :: s2.destFiles,
                         quarantinePresent := false,
                         processed_hashes := file_hash :: s2.processed_hashes,
                         processed_keys := info.chave_acesso :: s2.processed_keys },
               [.statusUpd .PARSED none, .statusUpd .DB_INSERTED none,
                .statusUpd .FILE_MOVED (some dest), .statusUpd .SUCCESS (some dest)])
            else if env.rollbackOk then
              ({ success := false, errMsg := some "Erro ao mover",
                 errType := some .FILE_PERMISSION_ERROR },
               { s2 with nota_fiscal :=
                   s2.nota_fiscal.filter (fun r => r.chave_acesso != info.chave_acesso) },
               [.statusUpd .PARSED none, .statusUpd .DB_INSERTED none])
            else
              ({ success := false, errMsg := some "Erro ao mover",
                 errType := some .FILE_PERMISSION_ERROR }, s2,
               [.statusUpd .PARSED none, .statusUpd .DB_INSERTED none,
                .criticalRollbackFailure])

/-- The status written by `record_attempt` for an attempt
(`SUCCESS if success else FAILED_MOVE` in the source). -/
def attempt_record_status (success : Bool) : PStatus :=
  if success then .SUCCESS else .FAILED_MOVE

/-- Per-file environment for `process_single_file_with_retry`: the initial
hash, whether the audit row creation succeeded, whether the quarantine move
succeeded, the quarantine timestamp, the per-attempt environments, and
whether the final dead-letter move succeeds. -/
structure FileEnv where
  initialHash : Option String
  auditCreated : Bool
  quarantineOk : Bool
  ts : String
  att : Nat → AttemptEnv
  deadLetterOk : Bool

/-- The per-file result dict of the source (`file`, `status`, `attempts`). -/
structure RunResult where
  file : String
  statusStr : String
  attempts : Nat
deriving DecidableEq

/-- The retry loop of `process_single_file_with_retry` (attempts numbered
`k`, `k+1`, ...).  The fuel makes the recursion structural; the entry point
supplies `MAX_RETRY_ATTEMPTS` as fuel for `k = 1`, so fuel never runs out. -/
def retryLoop (fe : FileEnv) (qname : String) : Nat → Nat → PState → (String × Nat) × PState × List Ev
  | 0, k, s => (("erro", k - 1), s, [])
  | fuel + 1, k, s =>
    let a := atomic_process_file (fe.att k) qname s
    let res := a.1
    let s1 := a.2.1
    let evA := a.2.2
    let evR := Ev.statusUpd .PROCESSING none :: evA ++
      [Ev.attemptRec k (attempt_record_status res.success) res.errType]
    if res.success then
      (("sucesso", k), s1, evR)
    else if k < MAX_RETRY_ATTEMPTS then
      let rest := retryLoop fe qname fuel (k + 1) s1
      (rest.1, rest.2.1, evR ++ Ev.sleepEv (RETRY_DELAY_BASE ^ k) :: rest.2.2)
    else if fe.deadLetterOk then
      (("erro", k), { s1 with quarantinePresent := false },
       evR ++ [Ev.deadLetterMove qname,
               Ev.statusUpd .FAILED_PERMANENT (some (DEAD_LETTER_DIRECTORY ++ [qname]))])
    else
      (("erro", k), s1, evR ++ [Ev.criticalDeadLetterFailure])

/-- `process_single_file_with_retry` from the source: initial hash, audit row
creation, quarantine move (a failure of which is terminal `FAILED_PERMANENT`),
then the retry loop. -/
def process_single_file_with_retry (fe : FileEnv) (fname : String) (s : PState) :
    RunResult × PState × List Ev :=
  match fe.initialHash with
  | none => ({ file := fname, statusStr := "erro", attempts := 0 }, s, [])
  | some _ =>
    if fe.auditCreated then
      if fe.quarantineOk then
        let qname := quarantine_name fe.ts fname
        let rl := retryLoop fe qname MAX_RETRY_ATTEMPTS 1 s
        ({ file := fname, statusStr := rl.1.1, attempts := rl.1.2 }, rl.2.1,
         Ev.statusUpd .QUARANTINED none :: rl.2.2)
      else
        ({ file := fname, statusStr := "erro", attempts := 0 }, s,
         [.statusUpd .FAILED_PERMANENT none])
    else ({ file := fname, statusStr := "erro", attempts := 0 }, s, [])

/-- The per-batch counters of `process_batch`. -/
structure BatchStats where
  sucesso : Nat
  duplicado : Nat
  erro : Nat
  total_attempts : Nat
deriving DecidableEq

/-- The classification step of `process_batch` for one completed future:
add the attempt count, then increment exactly one of the three counters
(success when the status string is "sucesso", duplicate when it contains
"duplicado", error otherwise). -/
def tally (st : BatchStats) (r : RunResult) : BatchStats :=
  let st := { st with total_attempts := st.total_attempts + r.attempts }
  if r.statusStr = "sucesso" then { st with sucesso := st.sucesso + 1 }
  else if decide ("duplicado".data <:+: r.statusStr.data) then
    { st with duplicado := st.duplicado + 1 }
  else { st with erro := st.erro + 1 }

/-- `process_batch` from the source, abstracted over the collected per-file
results (the thread pool only affects completion order, which the counters
do not depend on). -/
def process_batch (results : List RunResult) : BatchStats :=
  results.foldl tally { sucesso := 0, duplicado := 0, erro := 0, total_attempts := 0 }

/-- `load_caches` from the source: populate the idempotency caches from the
`nota_fiscal` table, starting from the given (module-level) sets. -/
def load_caches (rows : List DocRow) (hs ks : List String) : List String × List String :=
  rows.foldl (fun (p : List String × List String) r =>
    (r.hash_arquivo :: p.1, r.chave_acesso :: p.2)) (hs, ks)

/-!
Reconciliation model (step 2 of `reconcile_processing_queue`): audit rows
stuck in an intermediate status for more than ten minutes whose file is in
none of the quarantine, processing and failed directories are marked
`FAILED_PERMANENT` with a lost-file message.
-/

/-- An audit row as seen by the reconciler. -/
structure AuditRec where
  auditId : Nat
  filename : String
  current_status : PStatus
  last_attempt_at : Option Nat
  last_error_message : Option String
deriving DecidableEq

/-- The intermediate status set used by the reconciliation query. -/
def intermediate_statuses : List PStatus :=
  [.PENDING, .QUARANTINED, .PROCESSING, .PARSED, .DB_INSERTED]

/-- The message written for a lost file (the source writes it in Portuguese;
the specification quotes it in English translation). -/
def lost_file_message : String := "Arquivo perdido durante reconciliação"

/-- The `WHERE` clause of the reconciliation query: intermediate status and a
last-attempt timestamp (seconds) more than ten minutes old.  A row with no
recorded attempt is not selected (SQL `NULL` comparison). -/
def isStuck (now : Nat) (r : AuditRec) : Bool :=
  r.current_status ∈ intermediate_statuses &&
    match r.last_attempt_at with
    | some t => decide (t + 600 < now)
    | none => false

/-- The directory search of the reconciler: quarantine, processing, failed. -/
def fileFoundSomewhere (inQuarantine inProcessing inFailed : String → Bool)
    (fname : String) : Bool :=
  inQuarantine fname || inProcessing fname || inFailed fname

/-- Step 2 of `reconcile_processing_queue` applied to one audit row. -/
def reconcile_stuck_row (now : Nat) (inQuarantine inProcessing inFailed : String → Bool)
    (r : AuditRec) : AuditRec :=
  if isStuck now r && ! fileFoundSomewhere inQuarantine inProcessing inFailed r.filename then
    { r with current_status := .FAILED_PERMANENT,
             last_error_message := some lost_file_message }
  else r

/-- Step 2 of `reconcile_processing_queue` over the audit table (each selected
row is updated by id; ids are unique, so this is a pointwise map). -/
def reconcile_processing_queue_step2 (now : Nat)
    (inQuarantine inProcessing inFailed : String → Bool)
    (rows : List AuditRec) : List AuditRec :=
  rows.map (reconcile_stuck_row now inQuarantine inProcessing inFailed)

/-!
Trace observation helpers and concrete fixtures (used by the witness and
counterexample theorems; the fixtures follow scenario S1 of the
specification).
-/

/-- The attempt ordinals recorded in a trace, in order. -/
def attemptOrds (tr : List Ev) : List Nat :=
  tr.filterMap (fun e => match e with | .attemptRec n _ _ => some n | _ => none)

/-- The backoff sleep durations recorded in a trace, in order. -/
def sleepsOf (tr : List Ev) : List Nat :=
  tr.filterMap (fun e => match e with | .sleepEv d => some d | _ => none)

/-- The attempt records of a trace carrying a given status. -/
def attemptRecordsWith (st : PStatus) (tr : List Ev) : List Ev :=
  tr.filter (fun e => match e with
    | .attemptRec _ st' _ => decide (st' = st)
    | _ => false)

/-- Adjacency discipline of backoff sleeps: a sleep event is always
immediately preceded by the record of attempt `j` and lasts
`RETRY_DELAY_BASE ^ j` seconds. -/
def sleep_backoff_rel (a b : Ev) : Prop :=
  ∀ d, b = Ev.sleepEv d →
    ∃ j st et, a = Ev.attemptRec j st et ∧ d = RETRY_DELAY_BASE ^ j

/-- S1 `ide` block: emission datetime 2024-11-06, model code 55. -/
def ideS1 : XmlIde :=
  { dhEmi := some (some "2024-11-06T10:30:00-03:00"), dEmi := none,
    modTag := some (some "55") }

/-- S1 `emit` block. -/
def emitS1 : XmlEmit :=
  { cnpjTag := some (some "12345678000190"), xNome := some (some "EMPRESA TESTE LTDA") }

/-- S1 access key with the `NFe` prefix as it appears in `infNFe/@Id`. -/
def idS1 : String := "NFe35241112345678000190550010000001231234567890"

/-- The S1 document. -/
def docS1 : XmlDoc := { infNFe := some { idAttr := some idS1, ide := some ideS1, emit := some emitS1 } }

/-- S1 document with the `Id` attribute missing. -/
def docNoId : XmlDoc := { infNFe := some { idAttr := none, ide := some ideS1, emit := some emitS1 } }

/-- S1 document with the model-code element missing. -/
def docNoMod : XmlDoc :=
  { infNFe := some { idAttr := some idS1, ide := some { ideS1 with modTag := none },
                     emit := some emitS1 } }

/-- Attempt environment where everything succeeds (S1). -/
def envS1 : AttemptEnv :=
  { fileHash := some "h1", xmlDoc := some docS1, today := "2024-11-07",
    dbOtherError := false, moveOk := true, rollbackOk := true }

/-- Attempt environment whose XML lacks `infNFe` (extraction fails). -/
def envParseFail : AttemptEnv := { envS1 with xmlDoc := some { infNFe := none } }

/-- Attempt environment where the physical move fails. -/
def envMoveFail : AttemptEnv := { envS1 with moveOk := false }

/-- Per-file environment where every attempt succeeds (S1). -/
def feS1 : FileEnv :=
  { initialHash := some "h1", auditCreated := true, quarantineOk := true,
    ts := "20241106_103000_000000", att := fun _ => envS1, deadLetterOk := true }

/-- Per-file environment where every attempt fails to parse. -/
def feParseFail : FileEnv := { feS1 with att := fun _ => envParseFail }

/-- Empty initial state. -/
def s0 : PState :=
  { company_cache := [], empresas := [], nextEmpresaId := 1, nota_fiscal := [],
    processed_hashes := [], processed_keys := [], destFiles := [],
    quarantinePresent := true }

/-- State whose hash cache already contains the S1 file hash. -/
def sDup : PState := { s0 with processed_hashes := ["h1"] }

/-- A catalog row holding the S1 access key (with a different content hash). -/
def rowK : DocRow :=
  { chave_acesso := "35241112345678000190550010000001231234567890",
    hash_arquivo := "hOther", empresa_id := 1, data_processamento := "2024-11-01",
    data_emissao := "2024-11-01", tipo_documento := "NFE", caminho_arquivo := ["x"] }

/-- State whose document table already holds `rowK`. -/
def sRowK : PState := { s0 with nota_fiscal := [rowK] }

/-- A stuck audit row used by the reconciliation witness. -/
def stuckAudit : AuditRec :=
  { auditId := 7, filename := "a.xml", current_status := .PROCESSING,
    last_attempt_at := some 0, last_error_message := none }

/-- The status updates of a trace carrying a given status. -/
def statusUpdsWith (st : PStatus) (tr : List Ev) : List Ev :=
  tr.filter (fun e => match e with
    | .statusUpd st' _ => decide (st' = st)
    | _ => false)

/-!
Theorems.
-/

theorem upperChar_toNat_of (c : Char) (h : 97 ≤ c.toNat ∧ c.toNat ≤ 122) :
    (upperChar c).toNat = c.toNat - 32 := by
  unfold upperChar
  rw [dif_pos h]
  rfl

theorem upperChar_eq_of_not (c : Char) (h : ¬ (97 ≤ c.toNat ∧ c.toNat ≤ 122)) :
    upperChar c = c := by
  unfold upperChar
  rw [dif_neg h]

theorem upperChar_idem (c : Char) : upperChar (upperChar c) = upperChar c := by
  by_cases h : 97 ≤ c.toNat ∧ c.toNat ≤ 122
  · have h1 : (upperChar c).toNat = c.toNat - 32 := upperChar_toNat_of c h
    have h2 : ¬ (97 ≤ (upperChar c).toNat ∧ (upperChar c).toNat ≤ 122) := by omega
    exact upperChar_eq_of_not _ h2
  · rw [upperChar_eq_of_not c h, upperChar_eq_of_not c h]

theorem isWsChar_upperChar (c : Char) : isWsChar (upperChar c) = isWsChar c := by
  by_cases h : 97 ≤ c.toNat ∧ c.toNat ≤ 122
  · have h1 : (upperChar c).toNat = c.toNat - 32 := upperChar_toNat_of c h
    simp only [isWsChar, h1]
    rw [decide_eq_decide]
    omega
  · rw [upperChar_eq_of_not c h]

theorem isPunctChar_upperChar (c : Char) : isPunctChar (upperChar c) = isPunctChar c := by
  by_cases h : 97 ≤ c.toNat ∧ c.toNat ≤ 122
  · have h1 : (upperChar c).toNat = c.toNat - 32 := upperChar_toNat_of c h
    simp only [isPunctChar, h1]
    rw [decide_eq_decide]
    omega
  · rw [upperChar_eq_of_not c h]

theorem upperChar_space : upperChar ' ' = ' ' := by decide

/-! Support lemmas for idempotence of `standardize_company_name`. -/

theorem collapse_spaces_mem {l : List Char} {b : Bool} {c : Char}
    (h : c ∈ collapse_spaces l b) : c = ' ' ∨ (c ∈ l ∧ isWsChar c = false) := by
  induction l generalizing b with
  | nil => cases b <;> simp [collapse_spaces] at h
  | cons d rest ih =>
    by_cases hw : isWsChar d
    · cases b
      · simp only [collapse_spaces, hw, if_true] at h
        rcases List.mem_cons.mp h with h1 | h1
        · exact Or.inl h1
        · rcases ih h1 with h2 | ⟨h2, h3⟩
          · exact Or.inl h2
          · exact Or.inr ⟨List.mem_cons_of_mem _ h2, h3⟩
      · simp only [collapse_spaces, hw, if_true] at h
        rcases ih h with h1 | ⟨h1, h2⟩
        · exact Or.inl h1
        · exact Or.inr ⟨List.mem_cons_of_mem _ h1, h2⟩
    · cases b <;>
      · simp only [collapse_spaces, hw, if_false, Bool.false_eq_true] at h
        rcases List.mem_cons.mp h with h1 | h1
        · subst h1
          exact Or.inr ⟨List.mem_cons_self _ _, by simpa using hw⟩
        · rcases ih h1 with h2 | ⟨h2, h3⟩
          · exact Or.inl h2
          · exact Or.inr ⟨List.mem_cons_of_mem _ h2, h3⟩

theorem collapse_spaces_head_true {l : List Char} {c : Char}
    (h : (collapse_spaces l true).head? = some c) : isWsChar c = false := by
  induction l with
  | nil => simp [collapse_spaces] at h
  | cons d rest ih =>
    by_cases hw : isWsChar d
    · simp only [collapse_spaces, hw, if_true] at h
      exact ih h
    · simp only [collapse_spaces, hw, if_false, Bool.false_eq_true, List.head?_cons,
        Option.some.injEq] at h
      subst h
      simpa using hw

theorem collapse_spaces_chain (l : List Char) (b : Bool) :
    (collapse_spaces l b).Chain' (fun a c => ¬ (isWsChar a = true ∧ isWsChar c = true)) := by
  induction l generalizing b with
  | nil => cases b <;> simp [collapse_spaces]
  | cons d rest ih =>
    by_cases hw : isWsChar d
    · cases b
      · simp only [collapse_spaces, hw, if_true]
        refine List.chain'_cons'.mpr ⟨?_, ih true⟩
        intro y hy hcon
        have hf := collapse_spaces_head_true (Option.mem_def.mp hy)
        rw [hf] at hcon
        exact absurd hcon.2 (by simp)
      · simpa only [collapse_spaces, hw, if_true] using ih true
    · cases b <;>
      · simp only [collapse_spaces, hw, if_false, Bool.false_eq_true]
        refine List.chain'_cons'.mpr ⟨?_, ih false⟩
        intro y hy hcon
        rw [hcon.1] at hw
        exact hw rfl

/-- `collapse_spaces` is the identity on lists already in collapsed form. -/
theorem collapse_spaces_id {l : List Char}
    (hsp : ∀ c ∈ l, isWsChar c = true → c = ' ')
    (hch : l.Chain' (fun a c => ¬ (isWsChar a = true ∧ isWsChar c = true))) :
    ∀ b : Bool, (b = true → ∀ c, l.head? = some c → isWsChar c = false) →
      collapse_spaces l b = l := by
  induction l with
  | nil => intro b _; cases b <;> simp [collapse_spaces]
  | cons d rest ih =>
    intro b hb
    have hrest :
        ∀ b' : Bool, (b' = true → ∀ c, rest.head? = some c → isWsChar c = false) →
          collapse_spaces rest b' = rest :=
      ih (fun c hc hwc => hsp c (List.mem_cons_of_mem _ hc) hwc) (List.Chain'.tail hch)
    by_cases hw : isWsChar d
    · have hd : d = ' ' := hsp d (List.mem_cons_self _ _) hw
      have hbfalse : b = false := by
        cases b with
        | false => rfl
        | true =>
          have := hb rfl d rfl
          rw [this] at hw
          exact absurd hw (by simp)
      subst hbfalse
      simp only [collapse_spaces, hw, if_true]
      rw [← hd]
      congr 1
      refine hrest true ?_
      intro _ c hc
      by_contra hcon
      simp only [Bool.not_eq_false] at hcon
      exact (List.chain'_cons'.mp hch).1 c (Option.mem_def.mpr hc) ⟨hw, hcon⟩
    · cases b <;>
      · simp only [collapse_spaces, hw, if_false, Bool.false_eq_true]
        congr 1
        exact hrest false (by simp)

theorem dropWhile_eq_self_of_head {p : Char → Bool} {l : List Char}
    (h : ∀ c, l.head? = some c → p c = false) : l.dropWhile p = l := by
  cases l with
  | nil => simp
  | cons d rest =>
    have := h d rfl
    simp [List.dropWhile, this]

theorem pyStrip_eq_self {l : List Char}
    (h1 : ∀ c, l.head? = some c → isWsChar c = false)
    (h2 : ∀ c, l.getLast? = some c → isWsChar c = false) :
    pyStrip l = l := by
  unfold pyStrip
  rw [dropWhile_eq_self_of_head h1]
  rw [dropWhile_eq_self_of_head (by
    intro c hc
    rw [List.head?_reverse] at hc
    exact h2 c hc)]
  exact List.reverse_reverse l

theorem mem_pyStrip {l : List Char} {c : Char} (h : c ∈ pyStrip l) : c ∈ l := by
  unfold pyStrip at h
  rw [List.mem_reverse] at h
  have h2 := ((List.dropWhile_suffix isWsChar).sublist).mem h
  rw [List.mem_reverse] at h2
  exact ((List.dropWhile_suffix isWsChar).sublist).mem h2

theorem head?_take_eq {m : Nat} {y : List Char} {c : Char}
    (h : (y.take m).head? = some c) : y.head? = some c := by
  cases m with
  | zero => simp at h
  | succ m =>
    cases y with
    | nil => simp at h
    | cons a rest => simpa using h

theorem head?_pyStrip {l : List Char} {c : Char}
    (h : (pyStrip l).head? = some c) : isWsChar c = false := by
  unfold pyStrip at h
  set y := l.dropWhile isWsChar with hy
  have hpre : (y.reverse.dropWhile isWsChar).reverse <+: y := by
    have hs := List.dropWhile_suffix (l := y.reverse) isWsChar
    have := List.reverse_prefix.mpr hs
    rwa [List.reverse_reverse] at this
  obtain ⟨t, ht⟩ := hpre
  have hhead : y.head? = some c := by
    cases hz : (y.reverse.dropWhile isWsChar).reverse with
    | nil => rw [hz] at h; simp at h
    | cons a rest =>
      rw [hz] at h ht
      simp only [List.head?_cons, Option.some.injEq] at h
      subst h
      rw [← ht]
      simp
  have := List.head?_dropWhile_not isWsChar l
  rw [← hy, hhead] at this
  simpa using this

theorem getLast?_pyStrip {l : List Char} {c : Char}
    (h : (pyStrip l).getLast? = some c) : isWsChar c = false := by
  unfold pyStrip at h
  rw [← List.head?_reverse, List.reverse_reverse] at h
  have := List.head?_dropWhile_not isWsChar (l.dropWhile isWsChar).reverse
  rw [h] at this
  simpa using this

theorem chain'_dropWhile {R : Char → Char → Prop} {p : Char → Bool} {l : List Char}
    (h : l.Chain' R) : (l.dropWhile p).Chain' R := by
  induction l with
  | nil => simp
  | cons a rest ih =>
    by_cases hp : p a
    · simp only [List.dropWhile, hp]
      exact ih h.tail
    · simpa only [List.dropWhile, hp, Bool.false_eq_true, if_false] using h

theorem chain'_pyStrip {l : List Char}
    (h : l.Chain' (fun a c => ¬ (isWsChar a = true ∧ isWsChar c = true))) :
    (pyStrip l).Chain' (fun a c => ¬ (isWsChar a = true ∧ isWsChar c = true)) := by
  have hsymm : ∀ (x : List Char),
      x.Chain' (fun a c => ¬ (isWsChar a = true ∧ isWsChar c = true)) →
      x.reverse.Chain' (fun a c => ¬ (isWsChar a = true ∧ isWsChar c = true)) := by
    intro x hx
    rw [List.chain'_reverse]
    exact hx.imp (fun a b hab hcon => hab ⟨hcon.2, hcon.1⟩)
  unfold pyStrip
  exact hsymm _ (chain'_dropWhile (hsymm _ (chain'_dropWhile h)))

theorem standardize_list_mem_not_punct {l : List Char} {c : Char}
    (h : c ∈ standardize_list l) : isPunctChar c = false := by
  unfold standardize_list at h
  rcases List.mem_map.mp h with ⟨c', hc', rfl⟩
  rw [isPunctChar_upperChar]
  have hmem := mem_pyStrip hc'
  rcases collapse_spaces_mem hmem with h1 | ⟨h1, _⟩
  · subst h1; decide
  · rcases List.mem_filter.mp h1 with ⟨_, hp⟩
    simpa using hp

theorem standardize_list_ws_space {l : List Char} {c : Char}
    (h : c ∈ standardize_list l) (hw : isWsChar c = true) : c = ' ' := by
  unfold standardize_list at h
  rcases List.mem_map.mp h with ⟨c', hc', rfl⟩
  rw [isWsChar_upperChar] at hw
  have hmem := mem_pyStrip hc'
  rcases collapse_spaces_mem hmem with h1 | ⟨_, h2⟩
  · subst h1; exact upperChar_space
  · rw [hw] at h2; exact absurd h2 (by simp)

theorem standardize_list_chain (l : List Char) :
    (standardize_list l).Chain' (fun a c => ¬ (isWsChar a = true ∧ isWsChar c = true)) := by
  unfold standardize_list
  rw [List.chain'_map]
  refine List.Chain'.imp ?_ (chain'_pyStrip (collapse_spaces_chain _ false))
  intro a b hab hcon
  rw [isWsChar_upperChar, isWsChar_upperChar] at hcon
  exact hab hcon

theorem standardize_list_head {l : List Char} {c : Char}
    (h : (standardize_list l).head? = some c) : isWsChar c = false := by
  unfold standardize_list at h
  rw [List.head?_map] at h
  cases hz : (pyStrip (collapse_spaces (l.filter (fun c => !isPunctChar c)) false)).head? with
  | none => rw [hz] at h; simp at h
  | some c' =>
    rw [hz] at h
    simp only [Option.map_some', Option.some.injEq] at h
    subst h
    rw [isWsChar_upperChar]
    exact head?_pyStrip hz

theorem standardize_list_getLast {l : List Char} {c : Char}
    (h : (standardize_list l).getLast? = some c) : isWsChar c = false := by
  unfold standardize_list at h
  rw [List.getLast?_map] at h
  cases hz : (pyStrip (collapse_spaces (l.filter (fun c => !isPunctChar c)) false)).getLast? with
  | none => rw [hz] at h; simp at h
  | some c' =>
    rw [hz] at h
    simp only [Option.map_some', Option.some.injEq] at h
    subst h
    rw [isWsChar_upperChar]
    exact getLast?_pyStrip hz

theorem standardize_list_map_upper (l : List Char) :
    (standardize_list l).map upperChar = standardize_list l := by
  unfold standardize_list
  rw [List.map_map]
  exact List.map_congr_left (fun c _ => upperChar_idem c)

theorem standardize_list_idem (l : List Char) :
    standardize_list (standardize_list l) = standardize_list l := by
  conv_lhs => rw [standardize_list]
  rw [List.filter_eq_self.mpr (fun c hc => by
    simp only [Bool.not_eq_true']
    exact standardize_list_mem_not_punct hc)]
  rw [collapse_spaces_id
    (fun c hc hw => standardize_list_ws_space hc hw)
    (standardize_list_chain l) false (by simp)]
  rw [pyStrip_eq_self
    (fun c hc => standardize_list_head hc)
    (fun c hc => standardize_list_getLast hc)]
  exact standardize_list_map_upper l

theorem cacheLookup_cacheSet (cnpj : String) (i : Nat) (n : String)
    (l : List (String × Nat × String)) :
    cacheLookup cnpj (cacheSet cnpj i n l) = some (i, n) := by
  induction l with
  | nil => simp [cacheSet, cacheLookup]
  | cons p rest ih =>
    obtain ⟨c, j, m⟩ := p
    by_cases hc : c = cnpj
    · subst hc
      simp [cacheSet, cacheLookup]
    · simp [cacheSet, cacheLookup, hc, ih]

theorem gocc_nota_fiscal (cnpj nome : String) (s : PState) :
    ((get_or_create_company cnpj nome s).2).nota_fiscal = s.nota_fiscal := by
  unfold get_or_create_company
  rcases h : cacheLookup cnpj s.company_cache with _ | ⟨i, n⟩
  · rcases hf : s.empresas.find? (fun r => r.cnpj = cnpj) with _ | row
    · simp [h, hf]
    · simp [h, hf]
  · by_cases hn : n = standardize_company_name nome
    · simp [h, hn]
    · simp [h, hn]

theorem gocc_processed_hashes (cnpj nome : String) (s : PState) :
    ((get_or_create_company cnpj nome s).2).processed_hashes = s.processed_hashes := by
  unfold get_or_create_company
  rcases h : cacheLookup cnpj s.company_cache with _ | ⟨i, n⟩
  · rcases hf : s.empresas.find? (fun r => r.cnpj = cnpj) with _ | row
    · simp [h, hf]
    · simp [h, hf]
  · by_cases hn : n = standardize_company_name nome
    · simp [h, hn]
    · simp [h, hn]

theorem gocc_processed_keys (cnpj nome : String) (s : PState) :
    ((get_or_create_company cnpj nome s).2).processed_keys = s.processed_keys := by
  unfold get_or_create_company
  rcases h : cacheLookup cnpj s.company_cache with _ | ⟨i, n⟩
  · rcases hf : s.empresas.find? (fun r => r.cnpj = cnpj) with _ | row
    · simp [h, hf]
    · simp [h, hf]
  · by_cases hn : n = standardize_company_name nome
    · simp [h, hn]
    · simp [h, hn]

theorem gocc_destFiles (cnpj nome : String) (s : PState) :
    ((get_or_create_company cnpj nome s).2).destFiles = s.destFiles := by
  unfold get_or_create_company
  rcases h : cacheLookup cnpj s.company_cache with _ | ⟨i, n⟩
  · rcases hf : s.empresas.find? (fun r => r.cnpj = cnpj) with _ | row
    · simp [h, hf]
    · simp [h, hf]
  · by_cases hn : n = standardize_company_name nome
    · simp [h, hn]
    · simp [h, hn]

theorem gocc_quarantinePresent (cnpj nome : String) (s : PState) :
    ((get_or_create_company cnpj nome s).2).quarantinePresent = s.quarantinePresent := by
  unfold get_or_create_company
  rcases h : cacheLookup cnpj s.company_cache with _ | ⟨i, n⟩
  · rcases hf : s.empresas.find? (fun r => r.cnpj = cnpj) with _ | row
    · simp [h, hf]
    · simp [h, hf]
  · by_cases hn : n = standardize_company_name nome
    · simp [h, hn]
    · simp [h, hn]

theorem gocc_cacheLookup (cnpj nome : String) (s : PState) :
    cacheLookup cnpj ((get_or_create_company cnpj nome s).2).company_cache =
      some ((get_or_create_company cnpj nome s).1, standardize_company_name nome) := by
  unfold get_or_create_company
  rcases h : cacheLookup cnpj s.company_cache with _ | p
  · rcases hf : s.empresas.find? (fun r => r.cnpj = cnpj) with _ | row
    · simp [h, hf, cacheLookup_cacheSet]
    · simp [h, hf, cacheLookup_cacheSet]
  · obtain ⟨i, n⟩ := p
    by_cases hn : n ≠ standardize_company_name nome
    · simp [h, hn, cacheLookup_cacheSet]
    · push_neg at hn
      subst hn
      simp [h]

/-- C10: issuer-name standardization is idempotent: for every string `s`,
`standardize_company_name (standardize_company_name s) =
standardize_company_name s`, so a display name already stored in canonical
form is never changed by re-standardization. -/
theorem claim_C10_standardize_company_name_idempotent (s : String) :
    standardize_company_name (standardize_company_name s) = standardize_company_name s := by
  unfold standardize_company_name
  exact congrArg String.mk (standardize_list_idem s.data)

/-- C7: during reconciliation, an audit row in an intermediate status whose
last attempt is more than ten minutes old and whose filename is found in none
of the quarantine, processing and failed directories is set to
`FAILED_PERMANENT` with the lost-file message (the source writes the message
in Portuguese; the specification quotes its English translation "file lost
during reconciliation"). -/
theorem claim_C7_reconcile_marks_lost_rows (now : Nat)
    (inQuarantine inProcessing inFailed : String → Bool)
    (rows : List AuditRec) (r : AuditRec) (t : Nat)
    (hmem : r ∈ rows)
    (hst : r.current_status ∈ intermediate_statuses)
    (ht : r.last_attempt_at = some t)
    (hold : t + 600 < now)
    (hq : inQuarantine r.filename = false)
    (hp : inProcessing r.filename = false)
    (hf : inFailed r.filename = false) :
    { r with current_status := .FAILED_PERMANENT,
             last_error_message := some lost_file_message } ∈
      reconcile_processing_queue_step2 now inQuarantine inProcessing inFailed rows := by
  unfold reconcile_processing_queue_step2
  refine List.mem_map.mpr ⟨r, hmem, ?_⟩
  unfold reconcile_stuck_row isStuck fileFoundSomewhere
  rw [ht]
  simp [hst, hold, hq, hp, hf]

/-- Witness for C7 at a concrete stuck row. -/
theorem claim_C7_witness :
    ({ auditId := 7, filename := "a.xml", current_status := .FAILED_PERMANENT,
       last_attempt_at := some 0, last_error_message := some lost_file_message } : AuditRec) ∈
      reconcile_processing_queue_step2 1000 (fun _ => false) (fun _ => false) (fun _ => false)
        [stuckAudit] :=
  claim_C7_reconcile_marks_lost_rows 1000 (fun _ => false) (fun _ => false) (fun _ => false)
    [stuckAudit] stuckAudit 0 (by simp) (by decide) rfl (by omega) rfl rfl rfl

/-- C5 (code bug): a file whose terminal outcome is DUPLICATE (here: its
content hash is already in the idempotency cache, so the attempt terminates
with a `DUPLICATE` status update) is returned by
`process_single_file_with_retry` with status string "sucesso", so
`process_batch` counts it in the success counter and the duplicate counter
stays 0 — the claim says it is counted as a duplicate. -/
theorem claim_C5_duplicate_counted_as_success :
    Ev.statusUpd .DUPLICATE none ∈ (process_single_file_with_retry feS1 "doc.xml" sDup).2.2 ∧
    (process_single_file_with_retry feS1 "doc.xml" sDup).1.statusStr = "sucesso" ∧
    process_batch [(process_single_file_with_retry feS1 "doc.xml" sDup).1] =
      { sucesso := 1, duplicado := 0, erro := 0, total_attempts := 1 } := by
  decide

/-- C6 (code bug): an attempt whose field extraction fails is recorded by
`record_attempt` with status `FAILED_MOVE` (the source hard-codes
`SUCCESS if success else FAILED_MOVE`), not `FAILED_PARSING`: in a run whose
every attempt fails to parse, the trace holds a `FAILED_MOVE` attempt record
carrying the XML error and no `FAILED_PARSING` record at all. -/
theorem claim_C6_parse_failure_recorded_as_failed_move :
    Ev.attemptRec 1 .FAILED_MOVE (some .XML_INVALID_STRUCTURE) ∈
      (process_single_file_with_retry feParseFail "doc.xml" s0).2.2 ∧
    attemptRecordsWith .FAILED_PARSING
      (process_single_file_with_retry feParseFail "doc.xml" s0).2.2 = [] ∧
    attemptRecordsWith .FAILED_MOVE
      (process_single_file_with_retry feParseFail "doc.xml" s0).2.2 =
      [Ev.attemptRec 1 .FAILED_MOVE (some .XML_INVALID_STRUCTURE),
       Ev.attemptRec 2 .FAILED_MOVE (some .XML_INVALID_STRUCTURE),
       Ev.attemptRec 3 .FAILED_MOVE (some .XML_INVALID_STRUCTURE),
       Ev.attemptRec 4 .FAILED_MOVE (some .XML_INVALID_STRUCTURE),
       Ev.attemptRec 5 .FAILED_MOVE (some .XML_INVALID_STRUCTURE)] := by
  decide

/-- C8 counterexample: the claim says a failure to extract the access key
(`infNFe/@Id`) or the model code yields a typed failure; in fact the source
defaults a missing `Id` to the empty string and formats a missing model code
as `MODNone`, returning a record in both cases. -/
theorem claim_C8_counterexample :
    ((get_xml_info docNoId "2024-11-07").map XmlInfo.chave_acesso = some "" ∧
     (get_xml_info docNoId "2024-11-07").isSome = true) ∧
    ((get_xml_info docNoMod "2024-11-07").map XmlInfo.tipo_documento = some "MODNone" ∧
     (get_xml_info docNoMod "2024-11-07").isSome = true) := by
  decide

/-- C8 (amended): the extractor returns a typed failure (`none`) whenever the
`infNFe` element, the `ide` or `emit` block, the emission date, the issuer
CNPJ or the issuer name cannot be extracted, and it never crashes (it is a
total function into `Option`); a missing `infNFe/@Id` instead yields a record
with an empty access key, and a missing model code yields kind `MODNone`. -/
theorem claim_C8_extractor_typed_failures (doc : XmlDoc) (today : String) :
    (doc.infNFe = none → get_xml_info doc today = none) ∧
    (∀ inf, doc.infNFe = some inf → inf.ide = none → get_xml_info doc today = none) ∧
    (∀ inf, doc.infNFe = some inf → inf.emit = none → get_xml_info doc today = none) ∧
    (∀ inf ide emitB, doc.infNFe = some inf → inf.ide = some ide → inf.emit = some emitB →
      emission_date_str ide = none → get_xml_info doc today = none) ∧
    (∀ inf ide emitB dstr, doc.infNFe = some inf → inf.ide = some ide → inf.emit = some emitB →
      emission_date_str ide = some dstr → parseDate dstr.data = none →
      get_xml_info doc today = none) ∧
    (∀ inf ide emitB, doc.infNFe = some inf → inf.ide = some ide → inf.emit = some emitB →
      (pyTruthy emitB.cnpjTag.join = false ∨ pyTruthy emitB.xNome.join = false) →
      get_xml_info doc today = none) := by
  refine ⟨?_, ?_, ?_, ?_, ?_, ?_⟩
  · intro h
    simp [get_xml_info, h]
  · intro inf h hide
    simp [get_xml_info, h, hide]
  · intro inf h hemit
    cases hide : inf.ide with
    | none => simp [get_xml_info, h, hide]
    | some ideV => simp [get_xml_info, h, hide, hemit]
  · intro inf ideV emitB h hide hemit hdate
    simp [get_xml_info, h, hide, hemit, hdate]
  · intro inf ideV emitB dstr h hide hemit hdate hparse
    simp [get_xml_info, h, hide, hemit, hdate, hparse]
  · intro inf ideV emitB h hide hemit hfalse
    cases hdate : emission_date_str ideV with
    | none => simp [get_xml_info, h, hide, hemit, hdate]
    | some dstr =>
      cases hparse : parseDate dstr.data with
      | none => simp [get_xml_info, h, hide, hemit, hdate, hparse]
      | some ymd =>
        obtain ⟨y, m, d⟩ := ymd
        rcases hfalse with hf | hf
        · have hf2 : pyTruthy (emitB.cnpjTag.bind fun a => a) = false := hf
          simp [get_xml_info, h, hide, hemit, hdate, hparse, hf2]
        · have hf2 : pyTruthy (emitB.xNome.bind fun a => a) = false := hf
          simp [get_xml_info, h, hide, hemit, hdate, hparse, hf2]

/-- Witness for the amended C8: a document without `infNFe` fails. -/
theorem claim_C8_witness :
    get_xml_info { infNFe := none } "2024-11-07" = none :=
  (claim_C8_extractor_typed_failures { infNFe := none } "2024-11-07").1 rfl

theorem atomic_dup_db_eq
    (env : AttemptEnv) (qname : String) (s : PState) (file_hash : String) (info : XmlInfo)
    (hh : env.fileHash = some file_hash)
    (hmiss : file_hash ∉ s.processed_hashes)
    (hinfo : env.xmlDoc.bind (fun d => get_xml_info d env.today) = some info)
    (hkmiss : info.chave_acesso ∉ s.processed_keys)
    (hdest : destination_path (standardize_company_name info.empresa_nome_xml) info.cnpj
        info.tipo_documento info.ano_emissao info.mes_ano_emissao info.dia_emissao qname
        ∉ s.destFiles)
    (hviol : ∃ r ∈ s.nota_fiscal,
        r.chave_acesso = info.chave_acesso ∨ r.hash_arquivo = file_hash) :
    atomic_process_file env qname s =
      ({ success := true, errMsg := some "Duplicado (BD)", errType := none },
       { (get_or_create_company info.cnpj info.empresa_nome_xml s).2 with
           quarantinePresent := false },
       [.statusUpd .PARSED none, .statusUpd .DUPLICATE none]) := by
  have hcl := gocc_cacheLookup info.cnpj info.empresa_nome_xml s
  have hdf := gocc_destFiles info.cnpj info.empresa_nome_xml s
  have hnf := gocc_nota_fiscal info.cnpj info.empresa_nome_xml s
  have hany : ((get_or_create_company info.cnpj info.empresa_nome_xml s).2).nota_fiscal.any
      (fun r => r.chave_acesso == info.chave_acesso || r.hash_arquivo == file_hash) = true := by
    rw [hnf]
    obtain ⟨r, hr, hor⟩ := hviol
    refine List.any_eq_true.mpr ⟨r, hr, ?_⟩
    rcases hor with h1 | h1 <;> simp [h1]
  simp only [atomic_process_file, hh, hinfo, hcl, hdf, hany,
    Option.map_some', Option.getD_some]
  rw [if_neg hmiss, if_neg hkmiss, if_neg hdest]
  simp

/-- C4: an integrity violation on the document insert (an existing row with
the same access key or content hash) is treated as DUPLICATE and is a
terminal success for the attempt: the table is unchanged (rollback), the
audit status is set to DUPLICATE, the quarantine file is deleted, the caches
are untouched and the call returns success (so the retry loop stops without
consuming further budget). -/
theorem claim_C4_integrity_violation_is_duplicate
    (env : AttemptEnv) (qname : String) (s : PState) (file_hash : String) (info : XmlInfo)
    (hh : env.fileHash = some file_hash)
    (hmiss : file_hash ∉ s.processed_hashes)
    (hinfo : env.xmlDoc.bind (fun d => get_xml_info d env.today) = some info)
    (hkmiss : info.chave_acesso ∉ s.processed_keys)
    (hdest : destination_path (standardize_company_name info.empresa_nome_xml) info.cnpj
        info.tipo_documento info.ano_emissao info.mes_ano_emissao info.dia_emissao qname
        ∉ s.destFiles)
    (hviol : ∃ r ∈ s.nota_fiscal,
        r.chave_acesso = info.chave_acesso ∨ r.hash_arquivo = file_hash) :
    (atomic_process_file env qname s).1.success = true ∧
    (atomic_process_file env qname s).1.errMsg = some "Duplicado (BD)" ∧
    ((atomic_process_file env qname s).2.1).nota_fiscal = s.nota_fiscal ∧
    Ev.statusUpd .DUPLICATE none ∈ (atomic_process_file env qname s).2.2 ∧
    ((atomic_process_file env qname s).2.1).quarantinePresent = false ∧
    ((atomic_process_file env qname s).2.1).processed_hashes = s.processed_hashes ∧
    ((atomic_process_file env qname s).2.1).processed_keys = s.processed_keys := by
  rw [atomic_dup_db_eq env qname s file_hash info hh hmiss hinfo hkmiss hdest hviol]
  refine ⟨rfl, rfl, ?_, by simp, rfl, ?_, ?_⟩
  · exact gocc_nota_fiscal info.cnpj info.empresa_nome_xml s
  · exact gocc_processed_hashes info.cnpj info.empresa_nome_xml s
  · exact gocc_processed_keys info.cnpj info.empresa_nome_xml s

/-- Witness for C4: concrete run against a table already holding the key. -/
theorem claim_C4_witness :
    (atomic_process_file envS1 "q.xml" sRowK).1.success = true ∧
    (atomic_process_file envS1 "q.xml" sRowK).1.errMsg = some "Duplicado (BD)" ∧
    ((atomic_process_file envS1 "q.xml" sRowK).2.1).nota_fiscal = sRowK.nota_fiscal ∧
    Ev.statusUpd .DUPLICATE none ∈ (atomic_process_file envS1 "q.xml" sRowK).2.2 ∧
    ((atomic_process_file envS1 "q.xml" sRowK).2.1).quarantinePresent = false ∧
    ((atomic_process_file envS1 "q.xml" sRowK).2.1).processed_hashes = sRowK.processed_hashes ∧
    ((atomic_process_file envS1 "q.xml" sRowK).2.1).processed_keys = sRowK.processed_keys :=
  claim_C4_integrity_violation_is_duplicate envS1 "q.xml" sRowK "h1"
    ((get_xml_info docS1 "2024-11-07").get (by decide))
    (by decide) (by decide) (by decide) (by decide) (by decide)
    ⟨rowK, by decide, by decide⟩

/-- C2: if the physical move fails after the document row was committed
(`DB_INSERTED` was reached), the attempt fails with
`FILE_PERMISSION_ERROR` and is recorded as `FAILED_MOVE`; when the rollback
delete succeeds the table is exactly as before the attempt (no row survives
for the fresh key), and when the rollback itself fails this is logged as
CRITICAL and the attempt still returns failure, so the outer retry proceeds
either way. -/
theorem claim_C2_move_failure_rolls_back
    (env : AttemptEnv) (qname : String) (s : PState)
    (hins : Ev.statusUpd .DB_INSERTED none ∈ (atomic_process_file env qname s).2.2)
    (hmv : env.moveOk = false) :
    (atomic_process_file env qname s).1.success = false ∧
    attempt_record_status (atomic_process_file env qname s).1.success = .FAILED_MOVE ∧
    (atomic_process_file env qname s).1.errType = some .FILE_PERMISSION_ERROR ∧
    (env.rollbackOk = true →
      ((atomic_process_file env qname s).2.1).nota_fiscal = s.nota_fiscal) ∧
    (env.rollbackOk = false →
      Ev.criticalRollbackFailure ∈ (atomic_process_file env qname s).2.2) := by
  revert hins
  rcases hh : env.fileHash with _ | file_hash
  · simp [atomic_process_file, hh]
  · by_cases hdup : file_hash ∈ s.processed_hashes
    · simp [atomic_process_file, hh, hdup]
    · rcases hinfo : env.xmlDoc.bind (fun d => get_xml_info d env.today) with _ | info
      · simp [atomic_process_file, hh, hdup, hinfo]
      · by_cases hk : info.chave_acesso ∈ s.processed_keys
        · simp [atomic_process_file, hh, hdup, hinfo, hk]
        · have hnf := gocc_nota_fiscal info.cnpj info.empresa_nome_xml s
          simp only [atomic_process_file, hh, hdup, hinfo, hk, hmv, if_false, if_neg,
            not_false_iff, Bool.false_eq_true]
          split
          · simp
          · split
            · simp
            · split
              · simp
              · rename_i hdest hany hdb
                split
                · rename_i hrb
                  intro _
                  refine ⟨rfl, rfl, rfl, ?_, ?_⟩
                  · intro _
                    have hall : ∀ r ∈ ((get_or_create_company info.cnpj
                        info.empresa_nome_xml s).2).nota_fiscal,
                        ¬ r.chave_acesso = info.chave_acesso := by
                      intro r hr
                      have h2 : ∀ x ∈ ((get_or_create_company info.cnpj
                          info.empresa_nome_xml s).2).nota_fiscal,
                          ¬ x.chave_acesso = info.chave_acesso ∧
                          ¬ x.hash_arquivo = file_hash := by simpa using hany
                      exact (h2 r hr).1
                    simp only [List.filter_cons, bne_self_eq_false, Bool.false_eq_true,
                      if_false]
                    rw [← hnf]
                    refine List.filter_eq_self.mpr ?_
                    intro r hr
                    simpa using hall r hr
                  · intro hfalse
                    rw [hfalse] at hrb
                    exact absurd hrb (by simp)
                · rename_i hrb
                  intro _
                  refine ⟨rfl, rfl, rfl, ?_, ?_⟩
                  · intro htrue
                    rw [htrue] at hrb
                    exact absurd rfl hrb
                  · intro _
                    simp

/-- Witness for C2: concrete run whose move fails after the commit. -/
theorem claim_C2_witness :
    (atomic_process_file envMoveFail "q.xml" s0).1.success = false ∧
    attempt_record_status (atomic_process_file envMoveFail "q.xml" s0).1.success =
      .FAILED_MOVE ∧
    (atomic_process_file envMoveFail "q.xml" s0).1.errType = some .FILE_PERMISSION_ERROR ∧
    (envMoveFail.rollbackOk = true →
      ((atomic_process_file envMoveFail "q.xml" s0).2.1).nota_fiscal = s0.nota_fiscal) ∧
    (envMoveFail.rollbackOk = false →
      Ev.criticalRollbackFailure ∈ (atomic_process_file envMoveFail "q.xml" s0).2.2) :=
  claim_C2_move_failure_rolls_back envMoveFail "q.xml" s0 (by decide) rfl

theorem load_caches_mem (rows : List DocRow) (hs ks : List String) (x : String) :
    (x ∈ (load_caches rows hs ks).1 ↔ x ∈ hs ∨ ∃ r ∈ rows, r.hash_arquivo = x) ∧
    (x ∈ (load_caches rows hs ks).2 ↔ x ∈ ks ∨ ∃ r ∈ rows, r.chave_acesso = x) := by
  induction rows generalizing hs ks with
  | nil => simp [load_caches]
  | cons r rest ih =>
    have h1 : load_caches (r :: rest) hs ks =
        load_caches rest (r.hash_arquivo :: hs) (r.chave_acesso :: ks) := rfl
    rw [h1]
    constructor
    · rw [(ih _ _).1]
      constructor
      · rintro (h | h)
        · rcases List.mem_cons.mp h with h2 | h2
          · exact Or.inr ⟨r, List.mem_cons_self _ _, h2.symm⟩
          · exact Or.inl h2
        · obtain ⟨r', hr', hx⟩ := h
          exact Or.inr ⟨r', List.mem_cons_of_mem _ hr', hx⟩
      · rintro (h | h)
        · exact Or.inl (List.mem_cons_of_mem _ h)
        · obtain ⟨r', hr', hx⟩ := h
          rcases List.mem_cons.mp hr' with h1' | h1'
          · subst h1'
            exact Or.inl (List.mem_cons.mpr (Or.inl hx.symm))
          · exact Or.inr ⟨r', h1', hx⟩
    · rw [(ih _ _).2]
      constructor
      · rintro (h | h)
        · rcases List.mem_cons.mp h with h2 | h2
          · exact Or.inr ⟨r, List.mem_cons_self _ _, h2.symm⟩
          · exact Or.inl h2
        · obtain ⟨r', hr', hx⟩ := h
          exact Or.inr ⟨r', List.mem_cons_of_mem _ hr', hx⟩
      · rintro (h | h)
        · exact Or.inl (List.mem_cons_of_mem _ h)
        · obtain ⟨r', hr', hx⟩ := h
          rcases List.mem_cons.mp hr' with h1' | h1'
          · subst h1'
            exact Or.inl (List.mem_cons.mpr (Or.inl hx.symm))
          · exact Or.inr ⟨r', h1', hx⟩

/-- C9: the idempotency caches are populated from the catalog at startup
(membership in the loaded caches is exactly existence of a catalog row), and
one call of the atomic transaction changes them only on the full success
path: every outcome with an error message (all failure and duplicate paths)
leaves both caches unchanged, and the outcome with no error message (full
success) implies the move succeeded, `SUCCESS`/`FILE_MOVED` were recorded
for the same destination, and the caches grew by the file's hash and key. -/
theorem claim_C9_caches_grow_only_on_success :
    (∀ (rows : List DocRow) (x : String),
      (x ∈ (load_caches rows [] []).1 ↔ ∃ r ∈ rows, r.hash_arquivo = x) ∧
      (x ∈ (load_caches rows [] []).2 ↔ ∃ r ∈ rows, r.chave_acesso = x)) ∧
    (∀ (env : AttemptEnv) (qname : String) (s : PState),
      ((atomic_process_file env qname s).1.errMsg ≠ none →
        ((atomic_process_file env qname s).2.1).processed_hashes = s.processed_hashes ∧
        ((atomic_process_file env qname s).2.1).processed_keys = s.processed_keys) ∧
      ((atomic_process_file env qname s).1.errMsg = none →
        env.moveOk = true ∧
        (∃ d, Ev.statusUpd .SUCCESS d ∈ (atomic_process_file env qname s).2.2 ∧
              Ev.statusUpd .FILE_MOVED d ∈ (atomic_process_file env qname s).2.2) ∧
        (∃ h k, env.fileHash = some h ∧
          ((atomic_process_file env qname s).2.1).processed_hashes =
            h :: s.processed_hashes ∧
          ((atomic_process_file env qname s).2.1).processed_keys =
            k :: s.processed_keys))) := by
  constructor
  · intro rows x
    have h := load_caches_mem rows [] [] x
    constructor
    · rw [h.1]; simp
    · rw [h.2]; simp
  · intro env qname s
    rcases hh : env.fileHash with _ | file_hash
    · refine ⟨?_, ?_⟩ <;> simp [atomic_process_file, hh]
    · by_cases hdup : file_hash ∈ s.processed_hashes
      · refine ⟨?_, ?_⟩ <;> simp [atomic_process_file, hh, hdup]
      · rcases hinfo : env.xmlDoc.bind (fun d => get_xml_info d env.today) with _ | info
        · refine ⟨?_, ?_⟩ <;> simp [atomic_process_file, hh, hdup, hinfo]
        · by_cases hk : info.chave_acesso ∈ s.processed_keys
          · refine ⟨?_, ?_⟩ <;> simp [atomic_process_file, hh, hdup, hinfo, hk]
          · have hph := gocc_processed_hashes info.cnpj info.empresa_nome_xml s
            have hpk := gocc_processed_keys info.cnpj info.empresa_nome_xml s
            simp only [atomic_process_file, hh, hdup, hinfo, hk, if_false, Bool.false_eq_true]
            set nm := ((Option.map Prod.snd (cacheLookup info.cnpj
              (get_or_create_company info.cnpj info.empresa_nome_xml
                s).2.company_cache)).getD "") with hnm
            set dst := destination_path nm info.cnpj info.tipo_documento info.ano_emissao
              info.mes_ano_emissao info.dia_emissao qname with hdst
            split
            · exact ⟨fun _ => ⟨hph, hpk⟩, fun hc => absurd hc (by simp)⟩
            · split
              · exact ⟨fun _ => ⟨hph, hpk⟩, fun hc => absurd hc (by simp)⟩
              · split
                · exact ⟨fun _ => ⟨hph, hpk⟩, fun hc => absurd hc (by simp)⟩
                · split
                  · rename_i hdest hany hdb hmv
                    refine ⟨fun hne => absurd rfl hne, fun _ => ⟨hmv, ?_, ?_⟩⟩
                    · exact ⟨some dst, by simp, by simp⟩
                    · exact ⟨file_hash, info.chave_acesso, rfl, by simp [hph], by simp [hpk]⟩
                  · split
                    · exact ⟨fun _ => ⟨hph, hpk⟩, fun hc => absurd hc (by simp)⟩
                    · exact ⟨fun _ => ⟨hph, hpk⟩, fun hc => absurd hc (by simp)⟩

/-- Witness for C9: both parts instantiated at concrete inputs. -/
theorem claim_C9_witness :
    ((("hOther" ∈ (load_caches [rowK] [] []).1 ↔ ∃ r ∈ [rowK], r.hash_arquivo = "hOther") ∧
      ("hOther" ∈ (load_caches [rowK] [] []).2 ↔ ∃ r ∈ [rowK], r.chave_acesso = "hOther"))) ∧
    (((atomic_process_file envS1 "q.xml" s0).1.errMsg ≠ none →
        ((atomic_process_file envS1 "q.xml" s0).2.1).processed_hashes = s0.processed_hashes ∧
        ((atomic_process_file envS1 "q.xml" s0).2.1).processed_keys = s0.processed_keys) ∧
      ((atomic_process_file envS1 "q.xml" s0).1.errMsg = none →
        envS1.moveOk = true ∧
        (∃ d, Ev.statusUpd .SUCCESS d ∈ (atomic_process_file envS1 "q.xml" s0).2.2 ∧
              Ev.statusUpd .FILE_MOVED d ∈ (atomic_process_file envS1 "q.xml" s0).2.2) ∧
        (∃ h k, envS1.fileHash = some h ∧
          ((atomic_process_file envS1 "q.xml" s0).2.1).processed_hashes =
            h :: s0.processed_hashes ∧
          ((atomic_process_file envS1 "q.xml" s0).2.1).processed_keys =
            k :: s0.processed_keys))) :=
  ⟨claim_C9_caches_grow_only_on_success.1 [rowK] "hOther",
   claim_C9_caches_grow_only_on_success.2 envS1 "q.xml" s0⟩

theorem atomic_events_kinds (env : AttemptEnv) (qname : String) (s : PState) :
    ∀ e ∈ (atomic_process_file env qname s).2.2,
      (∃ st d, e = Ev.statusUpd st d) ∨ e = Ev.criticalRollbackFailure := by
  intro e he
  revert he
  rcases hh : env.fileHash with _ | fh
  · simp [atomic_process_file, hh]
  · by_cases hdup : fh ∈ s.processed_hashes
    · simp only [atomic_process_file, hh, hdup, if_true, List.mem_singleton]
      rintro rfl
      exact Or.inl ⟨_, _, rfl⟩
    · rcases hinfo : env.xmlDoc.bind (fun d => get_xml_info d env.today) with _ | info
      · simp [atomic_process_file, hh, hdup, hinfo]
      · by_cases hk : info.chave_acesso ∈ s.processed_keys
        · simp only [atomic_process_file, hh, hdup, hinfo, hk, if_true, if_false,
            List.mem_singleton]
          rintro rfl
          exact Or.inl ⟨_, _, rfl⟩
        · simp only [atomic_process_file, hh, hdup, hinfo, hk, if_false, Bool.false_eq_true]
          split
          · simp only [List.mem_cons, List.mem_singleton, List.not_mem_nil, or_false]
            rintro (rfl | rfl) <;> exact Or.inl ⟨_, _, rfl⟩
          · split
            · simp only [List.mem_cons, List.mem_singleton, List.not_mem_nil, or_false]
              rintro (rfl | rfl) <;> exact Or.inl ⟨_, _, rfl⟩
            · split
              · simp only [List.mem_singleton]
                rintro rfl
                exact Or.inl ⟨_, _, rfl⟩
              · split
                · simp only [List.mem_cons, List.mem_singleton, List.not_mem_nil, or_false]
                  rintro (rfl | rfl | rfl | rfl) <;> exact Or.inl ⟨_, _, rfl⟩
                · split
                  · simp only [List.mem_cons, List.mem_singleton, List.not_mem_nil, or_false]
                    rintro (rfl | rfl) <;> exact Or.inl ⟨_, _, rfl⟩
                  · simp only [List.mem_cons, List.mem_singleton, List.not_mem_nil, or_false]
                    rintro (rfl | rfl | rfl) <;>
                      first
                        | exact Or.inl ⟨_, _, rfl⟩
                        | exact Or.inr rfl

theorem atomic_attemptOrds_nil (env : AttemptEnv) (qname : String) (s : PState) :
    attemptOrds (atomic_process_file env qname s).2.2 = [] := by
  refine List.filterMap_eq_nil_iff.mpr ?_
  intro e he
  rcases atomic_events_kinds env qname s e he with ⟨st, d, rfl⟩ | rfl <;> rfl

theorem atomic_sleepsOf_nil (env : AttemptEnv) (qname : String) (s : PState) :
    sleepsOf (atomic_process_file env qname s).2.2 = [] := by
  refine List.filterMap_eq_nil_iff.mpr ?_
  intro e he
  rcases atomic_events_kinds env qname s e he with ⟨st, d, rfl⟩ | rfl <;> rfl

theorem atomic_no_sleep (env : AttemptEnv) (qname : String) (s : PState) :
    ∀ d, Ev.sleepEv d ∉ (atomic_process_file env qname s).2.2 := by
  intro d hd
  rcases atomic_events_kinds env qname s _ hd with ⟨st, d', h⟩ | h <;> simp at h

theorem chain'_of_no_sleep {l : List Ev} (h : ∀ d, Ev.sleepEv d ∉ l) :
    l.Chain' sleep_backoff_rel := by
  induction l with
  | nil => simp
  | cons a rest ih =>
    refine List.chain'_cons'.mpr ⟨?_, ih (fun d hd => h d (List.mem_cons_of_mem _ hd))⟩
    intro y hy d hyd
    exfalso
    apply h d
    subst hyd
    exact List.mem_cons_of_mem _ (List.mem_of_mem_head? hy)

theorem no_sleep_attempt_chunk (env : AttemptEnv) (qname : String) (s : PState)
    (k : Nat) (st : PStatus) (et : Option ErrorType) :
    ∀ d, Ev.sleepEv d ∉
      (Ev.statusUpd .PROCESSING none :: (atomic_process_file env qname s).2.2 ++
        [Ev.attemptRec k st et]) := by
  intro d hd
  rcases List.mem_cons.mp hd with h | h
  · simp at h
  · rcases List.mem_append.mp h with h2 | h2
    · exact atomic_no_sleep env qname s d h2
    · simp at h2

theorem retryLoop_head_processing (fe : FileEnv) (qname : String) :
    ∀ (fuel k : Nat) (s : PState), 1 ≤ fuel →
      (retryLoop fe qname fuel k s).2.2.head? = some (Ev.statusUpd .PROCESSING none) := by
  intro fuel k s hf
  cases fuel with
  | zero => omega
  | succ n =>
    simp only [retryLoop]
    split
    · rfl
    · split
      · rfl
      · split
        · rfl
        · rfl

theorem attemptOrds_append (l1 l2 : List Ev) :
    attemptOrds (l1 ++ l2) = attemptOrds l1 ++ attemptOrds l2 :=
  List.filterMap_append l1 l2 _

theorem sleepsOf_append (l1 l2 : List Ev) :
    sleepsOf (l1 ++ l2) = sleepsOf l1 ++ sleepsOf l2 :=
  List.filterMap_append l1 l2 _

theorem attemptOrds_cons_status (st : PStatus) (d : Option (List String)) (l : List Ev) :
    attemptOrds (Ev.statusUpd st d :: l) = attemptOrds l := rfl

theorem attemptOrds_cons_attempt (n : Nat) (st : PStatus) (et : Option ErrorType)
    (l : List Ev) : attemptOrds (Ev.attemptRec n st et :: l) = n :: attemptOrds l := rfl

theorem attemptOrds_cons_sleep (d : Nat) (l : List Ev) :
    attemptOrds (Ev.sleepEv d :: l) = attemptOrds l := rfl

theorem attemptOrds_cons_dlm (nm : String) (l : List Ev) :
    attemptOrds (Ev.deadLetterMove nm :: l) = attemptOrds l := rfl

theorem attemptOrds_cons_cdlf (l : List Ev) :
    attemptOrds (Ev.criticalDeadLetterFailure :: l) = attemptOrds l := rfl

theorem sleepsOf_cons_status (st : PStatus) (d : Option (List String)) (l : List Ev) :
    sleepsOf (Ev.statusUpd st d :: l) = sleepsOf l := rfl

theorem sleepsOf_cons_attempt (n : Nat) (st : PStatus) (et : Option ErrorType)
    (l : List Ev) : sleepsOf (Ev.attemptRec n st et :: l) = sleepsOf l := rfl

theorem sleepsOf_cons_sleep (d : Nat) (l : List Ev) :
    sleepsOf (Ev.sleepEv d :: l) = d :: sleepsOf l := rfl

theorem sleepsOf_cons_dlm (nm : String) (l : List Ev) :
    sleepsOf (Ev.deadLetterMove nm :: l) = sleepsOf l := rfl

theorem sleepsOf_cons_cdlf (l : List Ev) :
    sleepsOf (Ev.criticalDeadLetterFailure :: l) = sleepsOf l := rfl

theorem range'_cons (s n : Nat) : List.range' s (n + 1) = s :: List.range' (s + 1) n := rfl

theorem retryLoop_spec (fe : FileEnv) (qname : String) :
    ∀ (fuel k : Nat) (s : PState), 1 ≤ fuel → 1 ≤ k → k + fuel = MAX_RETRY_ATTEMPTS + 1 →
      (k ≤ (retryLoop fe qname fuel k s).1.2 ∧
       (retryLoop fe qname fuel k s).1.2 ≤ MAX_RETRY_ATTEMPTS) ∧
      attemptOrds (retryLoop fe qname fuel k s).2.2 =
        List.range' k ((retryLoop fe qname fuel k s).1.2 + 1 - k) ∧
      sleepsOf (retryLoop fe qname fuel k s).2.2 =
        (List.range' k ((retryLoop fe qname fuel k s).1.2 - k)).map
          (fun j => RETRY_DELAY_BASE ^ j) ∧
      ((retryLoop fe qname fuel k s).2.2).Chain' sleep_backoff_rel ∧
      ((retryLoop fe qname fuel k s).1.1 = "erro" → fe.deadLetterOk = true →
        Ev.deadLetterMove qname ∈ (retryLoop fe qname fuel k s).2.2 ∧
        Ev.statusUpd .FAILED_PERMANENT (some (DEAD_LETTER_DIRECTORY ++ [qname])) ∈
          (retryLoop fe qname fuel k s).2.2) := by
  intro fuel
  induction fuel with
  | zero =>
    intro k s hf hk hinv
    exact absurd hf (by omega)
  | succ n ih =>
    intro k s hf hk hinv
    by_cases hs : (atomic_process_file (fe.att k) qname s).1.success = true
    · simp only [retryLoop, hs, eq_self_iff_true, if_true, ite_true]
      refine ⟨⟨le_refl k, by omega⟩, ?_, ?_, ?_, ?_⟩
      · rw [attemptOrds_append, attemptOrds_cons_status, atomic_attemptOrds_nil,
          attemptOrds_cons_attempt]
        have h1 : k + 1 - k = 1 := by omega
        rw [h1]
        rfl
      · rw [sleepsOf_append, sleepsOf_cons_status, atomic_sleepsOf_nil,
          sleepsOf_cons_attempt]
        have h1 : k - k = 0 := by omega
        rw [h1]
        rfl
      · exact chain'_of_no_sleep (no_sleep_attempt_chunk _ _ _ _ _ _)
      · intro h
        exact absurd h (by decide)
    · by_cases hklt : k < MAX_RETRY_ATTEMPTS
      · have hrec := ih (k + 1) ((atomic_process_file (fe.att k) qname s).2.1)
          (by omega) (by omega) (by omega)
        obtain ⟨⟨hl, hu⟩, hords, hsleeps, hchain, hdead⟩ := hrec
        simp only [retryLoop, hs, hklt, if_true, ite_true, if_false, ite_false,
          Bool.false_eq_true, eq_self_iff_true]
        refine ⟨⟨by omega, hu⟩, ?_, ?_, ?_, ?_⟩
        · rw [attemptOrds_append, attemptOrds_append, attemptOrds_cons_status,
            atomic_attemptOrds_nil, attemptOrds_cons_attempt, attemptOrds_cons_sleep, hords]
          have h2 : (retryLoop fe qname n (k + 1)
              ((atomic_process_file (fe.att k) qname s).2.1)).1.2 + 1 - k =
              ((retryLoop fe qname n (k + 1)
                ((atomic_process_file (fe.att k) qname s).2.1)).1.2 + 1 - (k + 1)) + 1 := by
            omega
          rw [h2, range'_cons]
          rfl
        · rw [sleepsOf_append, sleepsOf_append, sleepsOf_cons_status,
            atomic_sleepsOf_nil, sleepsOf_cons_attempt, sleepsOf_cons_sleep, hsleeps]
          have h2 : (retryLoop fe qname n (k + 1)
              ((atomic_process_file (fe.att k) qname s).2.1)).1.2 - k =
              ((retryLoop fe qname n (k + 1)
                ((atomic_process_file (fe.att k) qname s).2.1)).1.2 - (k + 1)) + 1 := by
            omega
          rw [h2, range'_cons]
          rfl
        · refine List.chain'_append.mpr ⟨?_, ?_, ?_⟩
          · exact chain'_of_no_sleep (no_sleep_attempt_chunk _ _ _ _ _ _)
          · refine List.chain'_cons'.mpr ⟨?_, hchain⟩
            intro y hy d hyd
            have hh := retryLoop_head_processing fe qname n (k + 1)
              ((atomic_process_file (fe.att k) qname s).2.1) (by omega)
            rw [hh, Option.mem_def] at hy
            injection hy with hy3
            rw [← hy3] at hyd
            exact absurd hyd (by simp)
          · intro x hx y hy
            rw [List.getLast?_concat, Option.mem_def] at hx
            injection hx with hx3
            simp only [List.head?_cons, Option.mem_def] at hy
            injection hy with hy3
            rw [← hx3, ← hy3]
            intro d hd
            refine ⟨k, _, _, rfl, ?_⟩
            injection hd with h3
            exact h3.symm
        · intro herr hdl
          obtain ⟨h1, h2⟩ := hdead herr hdl
          exact ⟨List.mem_append_right _ (List.mem_cons_of_mem _ h1),
                 List.mem_append_right _ (List.mem_cons_of_mem _ h2)⟩
      · by_cases hdl : fe.deadLetterOk = true
        · simp only [retryLoop, hs, hklt, hdl, if_true, ite_true, if_false, ite_false,
            Bool.false_eq_true, eq_self_iff_true]
          refine ⟨⟨le_refl k, by omega⟩, ?_, ?_, ?_, ?_⟩
          · rw [attemptOrds_append, attemptOrds_append, attemptOrds_cons_status,
              atomic_attemptOrds_nil, attemptOrds_cons_attempt, attemptOrds_cons_dlm,
              attemptOrds_cons_status]
            have h1 : k + 1 - k = 1 := by omega
            rw [h1]
            rfl
          · rw [sleepsOf_append, sleepsOf_append, sleepsOf_cons_status,
              atomic_sleepsOf_nil, sleepsOf_cons_attempt, sleepsOf_cons_dlm,
              sleepsOf_cons_status]
            have h1 : k - k = 0 := by omega
            rw [h1]
            rfl
          · refine chain'_of_no_sleep ?_
            intro d hd
            rcases List.mem_append.mp hd with h | h
            · exact no_sleep_attempt_chunk _ _ _ _ _ _ d h
            · simp at h
          · intro _ _
            exact ⟨List.mem_append_right _ (by simp), List.mem_append_right _ (by simp)⟩
        · simp only [retryLoop, hs, hklt, hdl, if_true, ite_true, if_false, ite_false,
            Bool.false_eq_true, eq_self_iff_true]
          refine ⟨⟨le_refl k, by omega⟩, ?_, ?_, ?_, ?_⟩
          · rw [attemptOrds_append, attemptOrds_append, attemptOrds_cons_status,
              atomic_attemptOrds_nil, attemptOrds_cons_attempt, attemptOrds_cons_cdlf]
            have h1 : k + 1 - k = 1 := by omega
            rw [h1]
            rfl
          · rw [sleepsOf_append, sleepsOf_append, sleepsOf_cons_status,
              atomic_sleepsOf_nil, sleepsOf_cons_attempt, sleepsOf_cons_cdlf]
            have h1 : k - k = 0 := by omega
            rw [h1]
            rfl
          · refine chain'_of_no_sleep ?_
            intro d hd
            rcases List.mem_append.mp hd with h | h
            · exact no_sleep_attempt_chunk _ _ _ _ _ _ d h
            · simp at h
          · intro _ hcontr
            exact hcontr.elim

/-- C3: per file, at most `MAX_RETRY_ATTEMPTS` (5) attempts are performed
(attempt records are numbered 1..n with n ≤ 5); the backoff sleeps are
exactly `RETRY_DELAY_BASE ^ k` seconds for k = 1..n-1 in order (2, 4, 8, 16
across five attempts), each sleep immediately following the record of the
attempt whose ordinal is its exponent; and when the budget is exhausted
(final status "erro" after `MAX_RETRY_ATTEMPTS` attempts, with the
dead-letter move succeeding) the file is moved to the dead-letter area and
the audit row is set to `FAILED_PERMANENT`. -/
theorem claim_C3_retry_budget_and_backoff (fe : FileEnv) (fname : String) (s : PState) :
    (process_single_file_with_retry fe fname s).1.attempts ≤ MAX_RETRY_ATTEMPTS ∧
    attemptOrds (process_single_file_with_retry fe fname s).2.2 =
      List.range' 1 (process_single_file_with_retry fe fname s).1.attempts ∧
    sleepsOf (process_single_file_with_retry fe fname s).2.2 =
      (List.range' 1 ((process_single_file_with_retry fe fname s).1.attempts - 1)).map
        (fun j => RETRY_DELAY_BASE ^ j) ∧
    ((process_single_file_with_retry fe fname s).2.2).Chain' sleep_backoff_rel ∧
    ((process_single_file_with_retry fe fname s).1.statusStr = "erro" →
      (process_single_file_with_retry fe fname s).1.attempts = MAX_RETRY_ATTEMPTS →
      fe.deadLetterOk = true →
      (∃ nm, Ev.deadLetterMove nm ∈ (process_single_file_with_retry fe fname s).2.2) ∧
      (∃ p, Ev.statusUpd .FAILED_PERMANENT (some p) ∈
        (process_single_file_with_retry fe fname s).2.2)) := by
  rcases hih : fe.initialHash with _ | h0
  · refine ⟨?_, ?_, ?_, ?_, ?_⟩ <;>
      simp [process_single_file_with_retry, hih, attemptOrds, sleepsOf, MAX_RETRY_ATTEMPTS]
  · by_cases haud : fe.auditCreated = true
    · by_cases hq : fe.quarantineOk = true
      · obtain ⟨⟨hl, hu⟩, hords, hsleeps, hchain, hdead⟩ :=
          retryLoop_spec fe (quarantine_name fe.ts fname) MAX_RETRY_ATTEMPTS 1 s
            (by decide) (by decide) (by decide)
        simp only [process_single_file_with_retry, hih, haud, hq, if_true, ite_true,
          eq_self_iff_true]
        refine ⟨hu, ?_, ?_, ?_, ?_⟩
        · rw [attemptOrds_cons_status, hords]
          congr 1
        · rw [sleepsOf_cons_status, hsleeps]
        · refine List.chain'_cons'.mpr ⟨?_, hchain⟩
          intro y hy d hyd
          have hh := retryLoop_head_processing fe (quarantine_name fe.ts fname)
            MAX_RETRY_ATTEMPTS 1 s (by decide)
          rw [hh, Option.mem_def] at hy
          injection hy with hy3
          rw [← hy3] at hyd
          exact absurd hyd (by simp)
        · intro herr _ hdl
          obtain ⟨h1, h2⟩ := hdead herr hdl
          exact ⟨⟨_, List.mem_cons_of_mem _ h1⟩, ⟨_, List.mem_cons_of_mem _ h2⟩⟩
      · refine ⟨?_, ?_, ?_, ?_, ?_⟩ <;>
          simp [process_single_file_with_retry, hih, haud, hq, attemptOrds, sleepsOf,
            MAX_RETRY_ATTEMPTS]
    · refine ⟨?_, ?_, ?_, ?_, ?_⟩ <;>
        simp [process_single_file_with_retry, hih, haud, attemptOrds, sleepsOf,
          MAX_RETRY_ATTEMPTS]

/-- Witness for C3: the all-attempts-fail run performs exactly five attempts,
sleeps 2, 4, 8, 16 seconds, and dead-letters the file. -/
theorem claim_C3_witness :
    (process_single_file_with_retry feParseFail "doc.xml" s0).1.attempts ≤
      MAX_RETRY_ATTEMPTS ∧
    attemptOrds (process_single_file_with_retry feParseFail "doc.xml" s0).2.2 =
      List.range' 1 (process_single_file_with_retry feParseFail "doc.xml" s0).1.attempts ∧
    sleepsOf (process_single_file_with_retry feParseFail "doc.xml" s0).2.2 =
      (List.range' 1
        ((process_single_file_with_retry feParseFail "doc.xml" s0).1.attempts - 1)).map
        (fun j => RETRY_DELAY_BASE ^ j) ∧
    ((process_single_file_with_retry feParseFail "doc.xml" s0).2.2).Chain'
      sleep_backoff_rel ∧
    ((process_single_file_with_retry feParseFail "doc.xml" s0).1.statusStr = "erro" →
      (process_single_file_with_retry feParseFail "doc.xml" s0).1.attempts =
        MAX_RETRY_ATTEMPTS →
      feParseFail.deadLetterOk = true →
      (∃ nm, Ev.deadLetterMove nm ∈
        (process_single_file_with_retry feParseFail "doc.xml" s0).2.2) ∧
      (∃ p, Ev.statusUpd .FAILED_PERMANENT (some p) ∈
        (process_single_file_with_retry feParseFail "doc.xml" s0).2.2)) :=
  claim_C3_retry_budget_and_backoff feParseFail "doc.xml" s0

theorem destination_path_getLast (nome cnpj tipo ano mesAno dia fname : String) :
    (destination_path nome cnpj tipo ano mesAno dia fname).getLast? = some fname := rfl

theorem atomic_success_dest (env : AttemptEnv) (qname : String) (s : PState)
    (d : Option (List String))
    (hd : Ev.statusUpd .SUCCESS d ∈ (atomic_process_file env qname s).2.2) :
    ∃ info, env.xmlDoc.bind (fun dc => get_xml_info dc env.today) = some info ∧
      d = some (destination_path (standardize_company_name info.empresa_nome_xml) info.cnpj
        info.tipo_documento info.ano_emissao info.mes_ano_emissao info.dia_emissao qname) := by
  revert hd
  rcases hh : env.fileHash with _ | fh
  · simp [atomic_process_file, hh]
  · by_cases hdup : fh ∈ s.processed_hashes
    · simp [atomic_process_file, hh, hdup]
    · rcases hinfo : env.xmlDoc.bind (fun dc => get_xml_info dc env.today) with _ | info
      · simp [atomic_process_file, hh, hdup, hinfo]
      · by_cases hk : info.chave_acesso ∈ s.processed_keys
        · simp [atomic_process_file, hh, hdup, hinfo, hk]
        · have hcl := gocc_cacheLookup info.cnpj info.empresa_nome_xml s
          simp only [atomic_process_file, hh, hdup, hinfo, hk, hcl, Option.map_some',
            Option.getD_some, if_false, Bool.false_eq_true]
          split
          · simp
          · split
            · simp
            · split
              · simp
              · split
                · intro hd
                  refine ⟨info, rfl, ?_⟩
                  simp only [List.mem_cons, List.mem_singleton, List.not_mem_nil,
                    or_false] at hd
                  simpa using hd
                · split
                  · simp
                  · simp

theorem retryLoop_success_dest (fe : FileEnv) (qname : String) :
    ∀ (fuel k : Nat) (s : PState) (d : Option (List String)),
      Ev.statusUpd .SUCCESS d ∈ (retryLoop fe qname fuel k s).2.2 →
      ∃ j info,
        (fe.att j).xmlDoc.bind (fun dc => get_xml_info dc (fe.att j).today) = some info ∧
        d = some (destination_path (standardize_company_name info.empresa_nome_xml)
          info.cnpj info.tipo_documento info.ano_emissao info.mes_ano_emissao
          info.dia_emissao qname) := by
  intro fuel
  induction fuel with
  | zero =>
    intro k s d hd
    simp [retryLoop] at hd
  | succ n ih =>
    intro k s d hd
    revert hd
    by_cases hs : (atomic_process_file (fe.att k) qname s).1.success = true
    · simp only [retryLoop, hs, eq_self_iff_true, if_true, ite_true]
      intro hd
      rcases List.mem_append.mp hd with h | h
      · rcases List.mem_cons.mp h with h2 | h2
        · exact absurd h2 (by simp)
        · obtain ⟨info, h3, h4⟩ := atomic_success_dest (fe.att k) qname s d h2
          exact ⟨k, info, h3, h4⟩
      · exact absurd h (by simp)
    · by_cases hklt : k < MAX_RETRY_ATTEMPTS
      · simp only [retryLoop, hs, hklt, if_true, ite_true, if_false, ite_false,
          Bool.false_eq_true, eq_self_iff_true]
        intro hd
        rcases List.mem_append.mp hd with h | h
        · rcases List.mem_append.mp h with h1 | h1
          · rcases List.mem_cons.mp h1 with h2 | h2
            · exact absurd h2 (by simp)
            · obtain ⟨info, h3, h4⟩ := atomic_success_dest (fe.att k) qname s d h2
              exact ⟨k, info, h3, h4⟩
          · exact absurd h1 (by simp)
        · rcases List.mem_cons.mp h with h2 | h2
          · exact absurd h2 (by simp)
          · exact ih (k + 1) _ d h2
      · by_cases hdl : fe.deadLetterOk = true
        · simp only [retryLoop, hs, hklt, hdl, if_true, ite_true, if_false, ite_false,
            Bool.false_eq_true, eq_self_iff_true]
          intro hd
          rcases List.mem_append.mp hd with h | h
          · rcases List.mem_append.mp h with h1 | h1
            · rcases List.mem_cons.mp h1 with h2 | h2
              · exact absurd h2 (by simp)
              · obtain ⟨info, h3, h4⟩ := atomic_success_dest (fe.att k) qname s d h2
                exact ⟨k, info, h3, h4⟩
            · exact absurd h1 (by simp)
          · exact absurd h (by simp)
        · simp only [retryLoop, hs, hklt, hdl, if_true, ite_true, if_false, ite_false,
            Bool.false_eq_true, eq_self_iff_true]
          intro hd
          rcases List.mem_append.mp hd with h | h
          · rcases List.mem_append.mp h with h1 | h1
            · rcases List.mem_cons.mp h1 with h2 | h2
              · exact absurd h2 (by simp)
              · obtain ⟨info, h3, h4⟩ := atomic_success_dest (fe.att k) qname s d h2
                exact ⟨k, info, h3, h4⟩
            · exact absurd h1 (by simp)
          · exact absurd h (by simp)

/-- C1 counterexample: in the S1 happy-path run the single `SUCCESS` status
update carries a destination whose last component is the timestamp-prefixed
quarantine filename, not the original filename `doc.xml` — the claim's
`<original-filename>` last component is wrong. -/
theorem claim_C1_counterexample :
    statusUpdsWith .SUCCESS (process_single_file_with_retry feS1 "doc.xml" s0).2.2 =
      [Ev.statusUpd .SUCCESS (some (DESTINATION_NETWORK_DIRECTORY ++
        ["EMPRESA TESTE LTDA - 12345678000190", "NFE", "2024", "11-2024", "06",
         "20241106_103000_000000_doc.xml"]))] ∧
    (DESTINATION_NETWORK_DIRECTORY ++
      ["EMPRESA TESTE LTDA - 12345678000190", "NFE", "2024", "11-2024", "06",
       "20241106_103000_000000_doc.xml"]).getLast? =
      some "20241106_103000_000000_doc.xml" ∧
    "20241106_103000_000000_doc.xml" ≠ "doc.xml" := by
  decide

/-- C1 (amended): every `SUCCESS` status update of a file's processing
carries the destination
`<ARCHIVE_ROOT>/<ISSUER_NAME> - <TAX_ID>/<KIND>/<YYYY>/<MM-YYYY>/<DD>/<quarantine-filename>`,
where `ISSUER_NAME` is the canonical standardized issuer name, the date
components come from the document's emission date (the `ano_emissao`,
`mes_ano_emissao` and `dia_emissao` fields that `get_xml_info` derives from
it), and the last path component is the QUARANTINE filename, i.e. the
original filename with the timestamp prefix that `move_to_quarantine`
added — not the bare original filename. -/
theorem claim_C1_success_destination
    (fe : FileEnv) (fname : String) (s : PState) (d : Option (List String))
    (hd : Ev.statusUpd .SUCCESS d ∈ (process_single_file_with_retry fe fname s).2.2) :
    ∃ j info,
      (fe.att j).xmlDoc.bind (fun dc => get_xml_info dc (fe.att j).today) = some info ∧
      d = some (destination_path (standardize_company_name info.empresa_nome_xml)
        info.cnpj info.tipo_documento info.ano_emissao info.mes_ano_emissao
        info.dia_emissao (quarantine_name fe.ts fname)) ∧
      (destination_path (standardize_company_name info.empresa_nome_xml)
        info.cnpj info.tipo_documento info.ano_emissao info.mes_ano_emissao
        info.dia_emissao (quarantine_name fe.ts fname)).getLast? =
        some (quarantine_name fe.ts fname) := by
  revert hd
  rcases hih : fe.initialHash with _ | h0
  · simp [process_single_file_with_retry, hih]
  · by_cases haud : fe.auditCreated = true
    · by_cases hq : fe.quarantineOk = true
      · simp only [process_single_file_with_retry, hih, haud, hq, if_true, ite_true,
          eq_self_iff_true]
        intro hd
        rcases List.mem_cons.mp hd with h | h
        · exact absurd h (by simp)
        · obtain ⟨j, info, h1, h2⟩ := retryLoop_success_dest fe
            (quarantine_name fe.ts fname) MAX_RETRY_ATTEMPTS 1 s d h
          exact ⟨j, info, h1, h2, destination_path_getLast _ _ _ _ _ _ _⟩
      · simp [process_single_file_with_retry, hih, haud, hq]
    · simp [process_single_file_with_retry, hih, haud]

/-- Witness for the amended C1 at the S1 run. -/
theorem claim_C1_witness :
    ∃ j info,
      (feS1.att j).xmlDoc.bind (fun dc => get_xml_info dc (feS1.att j).today) =
        some info ∧
      (some (DESTINATION_NETWORK_DIRECTORY ++
        ["EMPRESA TESTE LTDA - 12345678000190", "NFE", "2024", "11-2024", "06",
         "20241106_103000_000000_doc.xml"]) : Option (List String)) =
        some (destination_path (standardize_company_name info.empresa_nome_xml)
          info.cnpj info.tipo_documento info.ano_emissao info.mes_ano_emissao
          info.dia_emissao (quarantine_name feS1.ts "doc.xml")) ∧
      (destination_path (standardize_company_name info.empresa_nome_xml)
        info.cnpj info.tipo_documento info.ano_emissao info.mes_ano_emissao
        info.dia_emissao (quarantine_name feS1.ts "doc.xml")).getLast? =
        some (quarantine_name feS1.ts "doc.xml") :=
  claim_C1_success_destination feS1 "doc.xml" s0
    (some (DESTINATION_NETWORK_DIRECTORY ++
      ["EMPRESA TESTE LTDA - 12345678000190", "NFE", "2024", "11-2024", "06",
       "20241106_103000_000000_doc.xml"])) (by decide)
